import Mathlib

/-!
# ImageGridComponent: layout, visible window and streaming image loader

A shallow embedding of `es-core/src/components/ImageGridComponent.h`.

Conventions of the embedding:

* C++ `int` is `Int` (no overflow is modelled), `float` is `ℚ` (exact
  arithmetic, no rounding); a conversion from `float` to `int` truncates
  toward zero (`truncToInt`), integer `/` is `Int.tdiv`. An integer division
  by zero is undefined in C++: the functions that keep the source's names are
  total there (`Int.tdiv x 0 = 0`) and give the source's result wherever the
  source has one, and the functions whose names end in `?` (`updateImages?`,
  `dynamicImageLoader?`, `ticks?`, `onSizeChanged?`) return `none` where the
  source divides by a zero column count or loads an index outside the list.
  A rational divided by 0 is 0.
* The component is a record of its member variables; every member function
  is a function from the record to the updated record.
* `IList::loadTexture` and `IList::clearImage` live in `components/IList.h`,
  which is not among the sources; they are modelled from the specification.
  Each call to one of them is also appended to the ghost field `trace`, so
  that statements about *which* calls were made can be phrased.
-/

namespace ImageGrid

/-! ## Data model -/

/-- Two floats (`Eigen::Vector2f`), over exact rationals. -/
structure Vector2f where
  x : ℚ
  y : ℚ
deriving DecidableEq

/-- Two ints (`Eigen::Vector2i`). -/
structure Vector2i where
  x : Int
  y : Int
deriving DecidableEq, Repr

/-- Conversion of a float to an int as C++ does it: truncation toward zero. -/
def truncToInt (q : ℚ) : Int := if 0 ≤ q then ⌊q⌋ else ⌈q⌉

/-- A decoded image: the path it was obtained from and its pixel size
(`TextureResource::getSize`). -/
structure TextureResource where
  path : String
  size : Vector2i
deriving DecidableEq

/-- The resource collaborator: which paths exist
(`ResourceManager::fileExists`) and the pixel size of the texture a path
decodes to. -/
structure ResourceManager where
  fileExists : String → Bool
  textureSize : String → Vector2i

/-- Texture lookup by path (`TextureResource::get`). -/
def TextureResource.get (rm : ResourceManager) (path : String) : TextureResource :=
  { path := path, size := rm.textureSize path }

/-- One entry of the list (`IList::Entry` with `ImageGridData`): display name,
image path (`strdata`) and the nullable texture handle (`data.texture`). The
opaque payload and the title label play no part in layout or loading. -/
structure Entry where
  name : String
  strdata : String
  texture : Option TextureResource
deriving DecidableEq

/-- Direction the user is moving (`enum UserDirection`). -/
inductive UserDirection where
  | MOVING_UP
  | MOVING_DOWN
deriving DecidableEq, Repr

/-- Range around the cursor used for loading textures (`struct CursorRange`,
with its default member initialisers). -/
structure CursorRange where
  min : Int := 0
  max : Int := 12
  length : Int := 0
deriving DecidableEq, Repr

/-- One tile (`ImageComponent`): the fields the grid writes through
`setPosition`, `setOrigin`, `setResize`, `setColorShift` and `setImage`. The
default values stand for a freshly constructed `ImageComponent`, whose class
is not among the sources; no statement below depends on them. -/
structure ImageComponent where
  position : Vector2f := ⟨0, 0⟩
  origin : Vector2f := ⟨0, 0⟩
  targetSize : Vector2f := ⟨0, 0⟩
  colorShift : Nat := 0xFFFFFFFF
  texture : Option TextureResource := none
deriving DecidableEq

/-- A call made to one of the two texture operations of the list base class. -/
inductive Call where
  | loadTexture (index : Int)
  | clearImage (index : Int)
deriving DecidableEq, Repr

/-- The member variables of `ImageGridComponent<T>` (with those of its
`IList` base that the grid reads: `mEntries`, `mCursor`, `mSize`). `trace` is
a ghost field recording the calls to `loadTexture` and `clearImage`. -/
structure ImageGridComponent where
  mEntries : List Entry := []
  mCursor : Int := 0
  mSize : Vector2f := ⟨0, 0⟩
  mEntriesDirty : Bool := true
  mTotalEntrys : Int := 0
  mGridMod : ℚ := 1
  mCursorRange : CursorRange := {}
  mCurrentLoad : Int := 0
  bLoading : Bool := false
  bUnloaded : Bool := false
  mPrevIndex : Int := 0
  mCurrentDirection : UserDirection := UserDirection.MOVING_DOWN
  mImages : List ImageComponent := []
  trace : List Call := []

/-! ## Texture operations of the list base class -/

/-- Apply `f` to the entry at `index`; an index outside the list changes
nothing. -/
def modifyAt (f : Entry → Entry) (entries : List Entry) (index : Int) : List Entry :=
  if index < 0 then entries
  else
    match entries[index.toNat]? with
    | none => entries
    | some e => entries.set index.toNat (f e)

/-- The handle an entry receives when it is loaded: the image of its path,
or the blank placeholder when the path does not exist (the same choice `add`
makes on line 185). -/
def loadedTexture (rm : ResourceManager) (e : Entry) : TextureResource :=
  if rm.fileExists e.strdata then TextureResource.get rm e.strdata
  else TextureResource.get rm ":/blank_game.png"

/-- Modelled from the spec: `IList::loadTexture(index)` is missing from the
sources. The entry at `index` receives the image of its path, or the blank
placeholder when the path does not exist ("loading an entry whose source path
does not exist substitutes a placeholder image"). The spec gives no result for
an index outside the list: this total function returns the list as it is
there, and `loadTexture?` is the operation with that case left without a
result. -/
def loadTexture (rm : ResourceManager) (entries : List Entry) (index : Int) : List Entry :=
  modifyAt (fun e => { e with texture := some (loadedTexture rm e) }) entries index

/-- Modelled from the spec: `IList::loadTexture(index)` with its domain. The
spec describes loading for an entry of the list only ("load image for entry
at load cursor"); for an index outside the list there is no result. -/
def loadTexture? (rm : ResourceManager) (entries : List Entry) (index : Int) :
    Option (List Entry) :=
  if 0 ≤ index ∧ index < entries.length then some (loadTexture rm entries index) else none

/-- Modelled from the spec: `IList::clearImage(index)` is missing from the
sources. The entry at `index` loses its image handle; "eviction of an index
outside array bounds is a no-op, not an error". -/
def clearImage (entries : List Entry) (index : Int) : List Entry :=
  modifyAt (fun e => { e with texture := none }) entries index

/-! ## Tile layout engine -/

/-- Tile size for one texture (`getSquareSize`, lines 73-96): 156 units scaled
by `1 + mGridMod / 10` (when `mGridMod > 0`), the longer axis also by the
aspect of the texture. -/
def getSquareSize (mGridMod : ℚ) (tex : Option TextureResource) : Vector2f :=
  let gamegrid_sizemod : ℚ := 1
  let modSize : ℚ := if mGridMod > 0 then mGridMod / 10 else 0
  let gamegrid_sizemod := gamegrid_sizemod + modSize
  let aspect : Vector2f :=
    match tex with
    | none => ⟨1, 1⟩
    | some t =>
      if t.size.x > t.size.y then ⟨(t.size.x : ℚ) / (t.size.y : ℚ), 1⟩
      else ⟨1, (t.size.y : ℚ) / (t.size.x : ℚ)⟩
  ⟨gamegrid_sizemod * (156 * aspect.x), gamegrid_sizemod * (156 * aspect.y)⟩

/-- Largest tile size over all entries, starting from 32 x 32
(`getMaxSquareSize`, lines 98-113). -/
def getMaxSquareSize (s : ImageGridComponent) : Vector2f :=
  s.mEntries.foldl
    (fun squareSize it =>
      let chkSize := getSquareSize s.mGridMod it.texture
      let squareSize : Vector2f :=
        if chkSize.x > squareSize.x then ⟨chkSize.x, squareSize.y⟩ else squareSize
      if chkSize.y > squareSize.y then ⟨squareSize.x, chkSize.y⟩ else squareSize)
    ⟨32, 32⟩

/-- Fixed padding per tile (`getPadding`, line 122). -/
def getPadding : Vector2f := ⟨24, 24⟩

/-- Columns and rows that fit the viewport (`getGridSize`, lines 115-120):
a float division per axis, converted to int. -/
def getGridSize (s : ImageGridComponent) : Vector2i :=
  let squareSize := getMaxSquareSize s
  ⟨truncToInt (s.mSize.x / (squareSize.x + getPadding.x)),
   truncToInt (s.mSize.y / (squareSize.y + getPadding.y))⟩

/-- Create and position the tiles (`buildImages`, lines 355-382). -/
def buildImages (s : ImageGridComponent) : ImageGridComponent :=
  let gridSize := getGridSize s
  let squareSize := getMaxSquareSize s
  let padding := getPadding
  let totalSize : Vector2f :=
    ⟨(gridSize.x : ℚ) * (squareSize.x + padding.x), (gridSize.y : ℚ) * (squareSize.y + padding.y)⟩
  let offset : Vector2f := ⟨(s.mSize.x - totalSize.x) / 2, (s.mSize.y - totalSize.y) / 2⟩
  { s with
    mImages :=
      (List.range gridSize.y.toNat).flatMap fun (y : Nat) =>
        (List.range gridSize.x.toNat).map fun (x : Nat) =>
          { position := ⟨(squareSize.x + padding.x) * ((x : ℚ) + 1 / 2) + offset.x,
                         (squareSize.y + padding.y) * ((y : ℚ) + 1 / 2) + offset.y⟩
            origin := ⟨1 / 2, 1 / 2⟩
            targetSize := squareSize
            texture := none } }

/-! ## Visible window -/

/-- First entry shown in the top-left tile: the computation of `start` in
`updateImages` (lines 393-403) for grid size `gridSize`, cursor `mCursor` and
`size` entries. The cursor row is centred; at the tail the start is replaced
(line 400); a negative start becomes 0. -/
def windowStart (gridSize : Vector2i) (mCursor size : Int) : Int :=
  let cursorRow := Int.tdiv mCursor gridSize.x
  let start := (cursorRow - Int.tdiv gridSize.y 2) * gridSize.x
  let start :=
    if start + gridSize.x * gridSize.y ≥ size then
      gridSize.x * (Int.tdiv size gridSize.x - gridSize.y + 1)
    else start
  if start < 0 then 0 else start

/-- The loop of `updateImages` over the tiles (lines 405-427): `i` is the
entry index for the next tile. -/
def assignImages (s : ImageGridComponent) : Nat → List ImageComponent → List ImageComponent
  | _, [] => []
  | i, image :: rest =>
    match s.mEntries[i]? with
    | none => { image with texture := none } :: assignImages s i rest
    | some entry =>
      let squareSize := getSquareSize s.mGridMod entry.texture
      let image : ImageComponent :=
        if (i : Int) = s.mCursor then
          { image with
            colorShift := 0xFFFFFFFF
            targetSize := ⟨squareSize.x + getPadding.x * (95 / 100),
                           squareSize.y + getPadding.y * (95 / 100)⟩ }
        else
          { image with colorShift := 0xAAAAAABB, targetSize := squareSize }
      { image with texture := entry.texture } :: assignImages s (i + 1) rest

/-- Assign entries to the tiles around the cursor (`updateImages`,
lines 385-428). The divisions by the column count (lines 393, 394 and 400) are
total here, as `Int.tdiv` is; this is the result of the source function when
the grid has at least one column, and `updateImages?` is the function with
the division by a zero column count left without a result. -/
def updateImages (s : ImageGridComponent) : ImageGridComponent :=
  let s := if s.mImages.isEmpty then buildImages s else s
  let gridSize := getGridSize s
  let start := windowStart gridSize s.mCursor s.mEntries.length
  { s with mImages := assignImages s start.toNat s.mImages }

/-- Tile refresh with its failure (`updateImages`, lines 385-428):
`mCursor / gridSize.x()` and `mCursor % gridSize.x()` on lines 393-394 are
integer divisions by the
column count and have no result when the grid has no column. The column count
does not depend on the tile array, so the rebuild on line 389 does not change
it. -/
def updateImages? (s : ImageGridComponent) : Option ImageGridComponent :=
  if (getGridSize s).x = 0 then none else some (updateImages s)

/-! ## Streaming load scheduler -/

/-- Cursor index of the list base class (`getCursorIndex`, lines 165-168). -/
def getCursorIndex (s : ImageGridComponent) : Int := s.mCursor

/-- Unload one image (`clearImageAt`, lines 268-271). -/
def clearImageAt (s : ImageGridComponent) (index : Int) : ImageGridComponent :=
  { s with mEntries := clearImage s.mEntries index, trace := s.trace ++ [Call.clearImage index] }

/-- One tick of the loader (`dynamicImageLoader`, lines 193-232). -/
def dynamicImageLoader (rm : ResourceManager) (s : ImageGridComponent) : ImageGridComponent :=
  if s.bLoading then
    let s := { s with mEntries := loadTexture rm s.mEntries s.mCurrentLoad,
                      trace := s.trace ++ [Call.loadTexture s.mCurrentLoad] }
    let s := updateImages s
    if s.mCurrentLoad < s.mCursorRange.max then { s with mCurrentLoad := s.mCurrentLoad + 1 }
    else { s with bLoading := false }
  else
    if s.bUnloaded then s
    else
      let s :=
        match s.mCurrentDirection with
        | UserDirection.MOVING_DOWN =>
          if s.mCursorRange.min > 0 then
            (List.range s.mCursorRange.min.toNat).foldl (fun st (i : Nat) => clearImageAt st (i : Int)) s
          else s
        | UserDirection.MOVING_UP =>
          if s.mCursorRange.max < s.mTotalEntrys then
            (List.range (s.mTotalEntrys - 1 - s.mCursorRange.max).toNat).foldl
              (fun st (k : Nat) => clearImageAt st (s.mTotalEntrys - 1 - (k : Int))) s
          else s
      { s with bUnloaded := true }

/-- One tick of the loader with its failures (`dynamicImageLoader`,
lines 193-232): a loading tick has no result when the load cursor is outside
the list or when the tile refresh divides by a zero column count; the
unloading and the settled tick always return. -/
def dynamicImageLoader? (rm : ResourceManager) (s : ImageGridComponent) :
    Option ImageGridComponent :=
  if s.bLoading then
    match loadTexture? rm s.mEntries s.mCurrentLoad with
    | none => none
    | some entries =>
      match updateImages? { s with mEntries := entries,
                                   trace := s.trace ++ [Call.loadTexture s.mCurrentLoad] } with
      | none => none
      | some s =>
        some (if s.mCurrentLoad < s.mCursorRange.max then
                { s with mCurrentLoad := s.mCurrentLoad + 1 }
              else { s with bLoading := false })
  else some (dynamicImageLoader rm s)

/-- The first `k` ticks with no cursor change in between; no result as soon as
one of them has none. -/
def ticks? (rm : ResourceManager) : Nat → ImageGridComponent → Option ImageGridComponent
  | 0, s => some s
  | k + 1, s => (ticks? rm k s).bind (dynamicImageLoader? rm)

/-- Recompute the range around the cursor (`updateLoadRange`, lines 234-266). -/
def updateLoadRange (s : ImageGridComponent) : ImageGridComponent :=
  let cursor := getCursorIndex s
  if cursor = s.mPrevIndex ∧ s.mCursorRange.length > 0 then s
  else
    let rmin := cursor - 10
    let rmin := if rmin < 0 then rmin + rmin * -1 else rmin
    let rmax := truncToInt (((cursor + 25 : Int) : ℚ) - s.mGridMod)
    let rmax := if rmax > s.mTotalEntrys then s.mTotalEntrys - 1 else rmax
    let rmax := if s.mTotalEntrys = 1 then 0 else rmax
    { s with
      mCursorRange := { min := rmin, max := rmax, length := rmax - rmin }
      mCurrentLoad := rmin
      bLoading := true
      mCurrentDirection :=
        if s.mPrevIndex > cursor then UserDirection.MOVING_UP else UserDirection.MOVING_DOWN
      bUnloaded := false
      mPrevIndex := cursor }

/-- React to a cursor change (`onCursorChanged`, lines 340-345). -/
def onCursorChanged (s : ImageGridComponent) : ImageGridComponent :=
  updateLoadRange (updateImages s)

/-! ## Grid facade -/

/-- Modelled from the spec: `IList::add(entry)` is missing from the sources;
the facade "appends an Entry" and "insertion order is the display order". -/
def listAdd (entries : List Entry) (entry : Entry) : List Entry := entries ++ [entry]

/-- Append an entry (`add`, lines 178-191): the image of the path or the blank
placeholder when `loadTextureNow`, the frame placeholder otherwise. The
payload and the title label are not part of the model. -/
def add (rm : ResourceManager) (name imagePath : String) (loadTextureNow : Bool)
    (s : ImageGridComponent) : ImageGridComponent :=
  let entry : Entry :=
    { name := name
      strdata := imagePath
      texture :=
        if loadTextureNow then
          some (if rm.fileExists imagePath then TextureResource.get rm imagePath
                else TextureResource.get rm ":/blank_game.png")
        else some (TextureResource.get rm ":/frame.png") }
  { s with mEntries := listAdd s.mEntries entry
           mEntriesDirty := true
           mTotalEntrys := s.mTotalEntrys + 1 }

/-- Full tile rebuild on a size change (`onSizeChanged`, lines 347-352):
`buildImages` followed by `updateImages`. -/
def onSizeChanged (s : ImageGridComponent) : ImageGridComponent :=
  updateImages (buildImages s)

/-- The rebuild with its failure (`onSizeChanged`, lines 347-352): no result
when `updateImages` has none. -/
def onSizeChanged? (s : ImageGridComponent) : Option ImageGridComponent :=
  updateImages? (buildImages s)

/-! ## Auxiliary definitions used in the statements -/

/-- Lower bound of the hot range as the specification words it:
`min = max(0, cursor − 10)`. -/
def hotRangeMinSpec (cursor : Int) : Int := max 0 (cursor - 10)

/-- Upper bound of the hot range as the specification words it:
`max = min(entryCount − 1, cursor + 25 − scaleModifier)`. -/
def hotRangeMaxSpec (entryCount cursor scaleModifier : Int) : Int :=
  min (entryCount - 1) (cursor + 25 - scaleModifier)

/-- Grid geometry as the specification words it: "zero or negative viewport
size is an error condition signaled to the caller", otherwise the viewport
extent divided by tile size plus padding per axis, truncated toward zero. -/
def computeGridGeometrySpec (viewportSize tileSize padding : Vector2f) : Option Vector2i :=
  if viewportSize.x ≤ 0 ∨ viewportSize.y ≤ 0 then none
  else some ⟨truncToInt (viewportSize.x / (tileSize.x + padding.x)),
             truncToInt (viewportSize.y / (tileSize.y + padding.y))⟩

/-- A stand-in image: the frame shown before loading or the blank image shown
for a missing file (the two paths of lines 185-186). -/
def TextureResource.isPlaceholder (t : TextureResource) : Prop :=
  t.path = ":/frame.png" ∨ t.path = ":/blank_game.png"

/-- The early return of `updateLoadRange` (line 240) is not taken: the cursor
moved, or no range has been set up yet. -/
def rangeStale (s : ImageGridComponent) : Prop :=
  ¬ (getCursorIndex s = s.mPrevIndex ∧ s.mCursorRange.length > 0)

instance (s : ImageGridComponent) : Decidable (rangeStale s) := by
  unfold rangeStale; infer_instance

/-- Entries after loading the `k` indices from `start` on, in order. -/
def loadRun (rm : ResourceManager) (entries : List Entry) (start : Int) (k : Nat) : List Entry :=
  (List.range k).foldl (fun es (j : Nat) => loadTexture rm es (start + (j : Int))) entries

/-- The `k` load calls from `start` on, in order. -/
def loadCalls (start : Int) (k : Nat) : List Call :=
  (List.range k).map (fun (j : Nat) => Call.loadTexture (start + (j : Int)))

/-- The tile array after the refresh a loading tick performs. -/
def loadingTiles (rm : ResourceManager) (s : ImageGridComponent) : List ImageComponent :=
  (updateImages { s with mEntries := loadTexture rm s.mEntries s.mCurrentLoad,
                         trace := s.trace ++ [Call.loadTexture s.mCurrentLoad] }).mImages

/-- The indices the unloading step hands to `clearImageAt`, in call order
(lines 210-226). -/
def evictedIndices (s : ImageGridComponent) : List Int :=
  match s.mCurrentDirection with
  | UserDirection.MOVING_DOWN =>
    (List.range s.mCursorRange.min.toNat).map (fun (i : Nat) => (i : Int))
  | UserDirection.MOVING_UP =>
    (List.range (s.mTotalEntrys - 1 - s.mCursorRange.max).toNat).map
      (fun (k : Nat) => s.mTotalEntrys - 1 - (k : Int))

/-- What the loop leaves in tile `k`. -/
def assignedTile (s : ImageGridComponent) (i : Nat) (t : ImageComponent) : ImageComponent :=
  match s.mEntries[i]? with
  | none => { t with texture := none }
  | some entry =>
    { t with
      colorShift := if (i : Int) = s.mCursor then 0xFFFFFFFF else 0xAAAAAABB
      targetSize :=
        if (i : Int) = s.mCursor then
          ⟨(getSquareSize s.mGridMod entry.texture).x + getPadding.x * (95 / 100),
           (getSquareSize s.mGridMod entry.texture).y + getPadding.y * (95 / 100)⟩
        else getSquareSize s.mGridMod entry.texture
      texture := entry.texture }

/-! ## Concrete components used as inputs -/

/-- A resource manager in which every path exists and decodes to a square
256 x 256 image. -/
def squareCovers : ResourceManager :=
  { fileExists := fun _ => true, textureSize := fun _ => ⟨256, 256⟩ }

/-- An entry added with `loadTextureNow = false`: it shows the frame
placeholder. -/
def frameEntry : Entry :=
  { name := "game", strdata := "/roms/game.png",
    texture := some (TextureResource.get squareCovers ":/frame.png") }

/-- A freshly filled grid of `n` entries, cursor on the first one. -/
def freshGrid (n : Nat) : ImageGridComponent :=
  { mEntries := List.replicate n frameEntry, mTotalEntrys := n }

/-- One entry without an image in a 150 x 150 viewport. -/
def smallViewport : ImageGridComponent :=
  { mEntries := [{ name := "game", strdata := "/roms/game.png", texture := none }]
    mTotalEntrys := 1
    mSize := ⟨150, 150⟩ }

/-- One entry without an image in a 1000 x 600 viewport. -/
def wideViewport : ImageGridComponent :=
  { mEntries := [{ name := "game", strdata := "/roms/game.png", texture := none }]
    mTotalEntrys := 1
    mSize := ⟨1000, 600⟩ }

/-- Thirty entries, cursor on entry 10, scale modifier 5. -/
def scaledGrid : ImageGridComponent :=
  { mEntries := List.replicate 30 frameEntry, mTotalEntrys := 30, mCursor := 10, mGridMod := 5 }

/-- Forty entries, the cursor just moved from entry 0 to entry 3. -/
def movedGrid : ImageGridComponent :=
  { mEntries := List.replicate 40 frameEntry, mTotalEntrys := 40, mCursor := 3 }

/-- A single entry, cursor on it, in a 1000 x 600 viewport. -/
def singleEntry : ImageGridComponent :=
  { mEntries := [frameEntry], mTotalEntrys := 1, mSize := ⟨1000, 600⟩ }

/-- Forty entries whose loading pass over the range `[10, 39]` has finished
while the user was moving down; nothing has been unloaded yet. -/
def loadedGrid : ImageGridComponent :=
  { mEntries := List.replicate 40 frameEntry
    mTotalEntrys := 40
    mCursor := 20
    mPrevIndex := 20
    mCursorRange := { min := 10, max := 39, length := 29 }
    mCurrentLoad := 39
    bLoading := false
    bUnloaded := false
    mCurrentDirection := UserDirection.MOVING_DOWN }

/-- A resource manager in which no path exists; the placeholders decode to
256 x 256 images. -/
def noCovers : ResourceManager :=
  { fileExists := fun _ => false, textureSize := fun _ => ⟨256, 256⟩ }

/-- Forty entries in a 1000 x 600 viewport, the cursor just moved from entry 0
to entry 3. -/
def browsingGrid : ImageGridComponent :=
  { mEntries := List.replicate 40 frameEntry, mTotalEntrys := 40, mCursor := 3,
    mSize := ⟨1000, 600⟩ }

/-- One entry added with `loadTextureNow = false` in a 150 x 150 viewport. -/
def narrowGrid : ImageGridComponent :=
  { mEntries := [frameEntry], mTotalEntrys := 1, mSize := ⟨150, 150⟩ }

/-- An empty grid whose viewport has a negative width. -/
def negativeViewport : ImageGridComponent :=
  { mSize := ⟨-300, 600⟩ }

/-- A tile showing the dim tint. -/
def dimTile : ImageComponent :=
  { colorShift := 0xAAAAAABB }

/-- An empty grid, cursor index 0, with one dim tile left on screen. -/
def emptyGridOneTile : ImageGridComponent :=
  { mSize := ⟨100, 100⟩, mImages := [dimTile] }

/-- Three entries in a 1000 x 600 viewport, cursor on the second entry, which
is being followed from entry 0. -/
def threeEntries : ImageGridComponent :=
  { mEntries := List.replicate 3 frameEntry, mTotalEntrys := 3, mCursor := 1,
    mSize := ⟨1000, 600⟩ }

/-- Name of a game. -/
def zeldaName : String := "zelda"

/-- Path of its cover image. -/
def zeldaPath : String := "/roms/zelda.png"

/-! ## Basic facts -/

theorem truncToInt_of_nonneg {q : ℚ} (h : 0 ≤ q) : truncToInt q = ⌊q⌋ := by
  simp [truncToInt, h]

theorem truncToInt_intCast (z : Int) : truncToInt (z : ℚ) = z := by
  unfold truncToInt
  split <;> simp

theorem modifyAt_getElem? (f : Entry → Entry) (entries : List Entry) (index : Int) (j : Nat) :
    (modifyAt f entries index)[j]? =
      if (j : Int) = index then entries[j]?.map f else entries[j]? := by
  unfold modifyAt
  by_cases hneg : index < 0
  · have : (j : Int) ≠ index := by omega
    simp [hneg, this]
  · simp only [hneg, if_false]
    have hidx : ((j : Int) = index) ↔ index.toNat = j := by omega
    cases hget : entries[index.toNat]? with
    | none =>
      by_cases hj : (j : Int) = index
      · have : index.toNat = j := hidx.mp hj
        subst this
        simp [hj, hget]
      · simp [hj]
    | some e =>
      by_cases hj : (j : Int) = index
      · have : index.toNat = j := hidx.mp hj
        subst this
        simp [hj, hget, List.getElem?_set]
        exact (List.getElem?_eq_some.mp hget).1
      · have : index.toNat ≠ j := fun h => hj (hidx.mpr h)
        simp [hj, List.getElem?_set, this]

theorem modifyAt_length (f : Entry → Entry) (entries : List Entry) (index : Int) :
    (modifyAt f entries index).length = entries.length := by
  unfold modifyAt
  split
  · rfl
  · split <;> simp

/-! ## Tile size and grid geometry -/

theorem getMaxSquareSize_fold_ge (m : ℚ) (l : List Entry) (init : Vector2f) :
    init.x ≤ (l.foldl
      (fun squareSize it =>
        let chkSize := getSquareSize m it.texture
        let squareSize : Vector2f :=
          if chkSize.x > squareSize.x then ⟨chkSize.x, squareSize.y⟩ else squareSize
        if chkSize.y > squareSize.y then ⟨squareSize.x, chkSize.y⟩ else squareSize) init).x ∧
    init.y ≤ (l.foldl
      (fun squareSize it =>
        let chkSize := getSquareSize m it.texture
        let squareSize : Vector2f :=
          if chkSize.x > squareSize.x then ⟨chkSize.x, squareSize.y⟩ else squareSize
        if chkSize.y > squareSize.y then ⟨squareSize.x, chkSize.y⟩ else squareSize) init).y := by
  induction l generalizing init with
  | nil => simp
  | cons e l ih =>
    simp only [List.foldl_cons]
    refine ⟨le_trans ?_ (ih _).1, le_trans ?_ (ih _).2⟩
    · split_ifs <;> simp_all <;> linarith
    · split_ifs <;> simp_all <;> linarith

theorem getMaxSquareSize_ge (s : ImageGridComponent) :
    32 ≤ (getMaxSquareSize s).x ∧ 32 ≤ (getMaxSquareSize s).y :=
  getMaxSquareSize_fold_ge s.mGridMod s.mEntries ⟨32, 32⟩

/-- C3, as stated, fails: a 150 x 150 viewport is positive on both axes and
the tile is 171.6 x 171.6, yet `getGridSize` returns zero columns and zero
rows. -/
theorem getGridSize_degenerate :
    0 < smallViewport.mSize.x ∧ 0 < smallViewport.mSize.y ∧
    0 < (getMaxSquareSize smallViewport).x ∧ 0 < (getMaxSquareSize smallViewport).y ∧
    getGridSize smallViewport = ⟨0, 0⟩ ∧
    ¬ (1 ≤ (getGridSize smallViewport).x ∧ 1 ≤ (getGridSize smallViewport).y) := by
  have hm : getMaxSquareSize smallViewport = ⟨1716 / 10, 1716 / 10⟩ := by
    simp [getMaxSquareSize, getSquareSize, smallViewport]
    norm_num
  have hg : getGridSize smallViewport = ⟨0, 0⟩ := by
    simp [getGridSize, getMaxSquareSize, getSquareSize, getPadding, smallViewport, truncToInt]
    norm_num
  refine ⟨by norm_num [smallViewport], by norm_num [smallViewport], ?_, ?_, hg, ?_⟩
  · rw [hm]; norm_num
  · rw [hm]; norm_num
  · rw [hg]; norm_num

/-- C3 (amended): for a viewport of positive width and height, `getGridSize`
returns non-negative counts, and it returns at least one column exactly when
the viewport is at least one tile plus the padding of 24 wide, at least one
row exactly when it is at least one tile plus the padding of 24 high. -/
theorem getGridSize_pos_iff (s : ImageGridComponent) (hw : 0 < s.mSize.x) (hh : 0 < s.mSize.y) :
    (0 ≤ (getGridSize s).x ∧ 0 ≤ (getGridSize s).y) ∧
    (1 ≤ (getGridSize s).x ↔ (getMaxSquareSize s).x + 24 ≤ s.mSize.x) ∧
    (1 ≤ (getGridSize s).y ↔ (getMaxSquareSize s).y + 24 ≤ s.mSize.y) := by
  have hx := (getMaxSquareSize_ge s).1
  have hy := (getMaxSquareSize_ge s).2
  have dx : 0 < (getMaxSquareSize s).x + 24 := by linarith
  have dy : 0 < (getMaxSquareSize s).y + 24 := by linarith
  have qx : 0 ≤ s.mSize.x / ((getMaxSquareSize s).x + 24) := le_of_lt (div_pos hw dx)
  have qy : 0 ≤ s.mSize.y / ((getMaxSquareSize s).y + 24) := le_of_lt (div_pos hh dy)
  simp only [getGridSize, getPadding, truncToInt_of_nonneg qx, truncToInt_of_nonneg qy]
  refine ⟨⟨Int.floor_nonneg.mpr qx, Int.floor_nonneg.mpr qy⟩, ?_, ?_⟩
  · rw [Int.le_floor, le_div_iff₀ dx]; simp
  · rw [Int.le_floor, le_div_iff₀ dy]; simp

/-- The amended C3 at a 1000 x 600 viewport. -/
theorem getGridSize_pos_iff_witness :
    (0 < wideViewport.mSize.x ∧ 0 < wideViewport.mSize.y) ∧
    ((0 ≤ (getGridSize wideViewport).x ∧ 0 ≤ (getGridSize wideViewport).y) ∧
     (1 ≤ (getGridSize wideViewport).x ↔
        (getMaxSquareSize wideViewport).x + 24 ≤ wideViewport.mSize.x) ∧
     (1 ≤ (getGridSize wideViewport).y ↔
        (getMaxSquareSize wideViewport).y + 24 ≤ wideViewport.mSize.y)) :=
  ⟨⟨by norm_num [wideViewport], by norm_num [wideViewport]⟩,
   getGridSize_pos_iff wideViewport (by norm_num [wideViewport]) (by norm_num [wideViewport])⟩

/-! ## Visible window -/

/-- With at least two rows the cursor is always inside the window: for
`columns ≥ 1`, `rows ≥ 2` and `0 ≤ c < entryCount` the start computed by
`updateImages` satisfies `start ≤ c < start + columns * rows`. -/
theorem windowStart_covers (columns rows entryCount c : Int)
    (hcol : 1 ≤ columns) (hrow : 2 ≤ rows) (h0 : 0 ≤ c) (hc : c < entryCount) :
    windowStart ⟨columns, rows⟩ c entryCount ≤ c ∧
      c < windowStart ⟨columns, rows⟩ c entryCount + columns * rows := by
  have hcpos : 0 < columns := by omega
  have hn0 : 0 ≤ entryCount := by omega
  simp only [windowStart, Int.tdiv_eq_ediv h0 (le_of_lt hcpos),
    Int.tdiv_eq_ediv (show (0 : Int) ≤ rows by omega) (by norm_num : (0 : Int) ≤ 2),
    Int.tdiv_eq_ediv hn0 (le_of_lt hcpos)]
  obtain ⟨r, hr⟩ : ∃ r, r = c / columns := ⟨_, rfl⟩
  obtain ⟨q, hq⟩ : ∃ q, q = entryCount / columns := ⟨_, rfl⟩
  obtain ⟨h, hh⟩ : ∃ h, h = rows / 2 := ⟨_, rfl⟩
  rw [← hr, ← hq, ← hh]
  have r1 : columns * r ≤ c := by rw [hr]; exact Int.mul_ediv_self_le (ne_of_gt hcpos)
  have r2 : c < columns * r + columns := by rw [hr]; exact Int.lt_mul_ediv_self_add hcpos
  have q1 : columns * q ≤ entryCount := by rw [hq]; exact Int.mul_ediv_self_le (ne_of_gt hcpos)
  have q2 : entryCount < columns * q + columns := by rw [hq]; exact Int.lt_mul_ediv_self_add hcpos
  have h1 : 1 ≤ h := by omega
  have h2 : 2 * h ≤ rows := by omega
  by_cases htail : (r - h) * columns + columns * rows ≥ entryCount
  · simp only [htail, if_true]
    have hrow_le : q - rows + 1 ≤ r := by
      by_contra hcon
      have hm : columns * (r - h + rows) < columns * q := by
        have : r - h + rows + 1 ≤ q := by omega
        nlinarith
      nlinarith
    have hle : columns * (q - rows + 1) ≤ columns * r := by nlinarith
    split_ifs with hneg
    · exact ⟨h0, by nlinarith⟩
    · exact ⟨by linarith, by nlinarith⟩
  · simp only [htail, if_false]
    have hle : (r - h) * columns ≤ columns * r := by nlinarith
    have hup : columns * r + columns ≤ (r - h) * columns + columns * rows := by nlinarith
    split_ifs with hneg
    · exact ⟨h0, by nlinarith⟩
    · exact ⟨by linarith, by linarith⟩

/-- With a single row the tail clamp loses the cursor whenever the entry count
is a positive multiple of the column count and the cursor is in the last row:
the start becomes the entry count itself. -/
theorem windowStart_single_row_exact_multiple (columns q c : Int)
    (hcol : 1 ≤ columns) (hq : 1 ≤ q) (h1 : columns * (q - 1) ≤ c) (h2 : c < columns * q) :
    windowStart ⟨columns, 1⟩ c (columns * q) = columns * q ∧
      ¬ (windowStart ⟨columns, 1⟩ c (columns * q) ≤ c) := by
  have hcpos : 0 < columns := by omega
  have hc0 : 0 ≤ c := le_trans (by nlinarith) h1
  have hn0 : 0 ≤ columns * q := by nlinarith
  have hrow : c / columns = q - 1 := by
    apply le_antisymm
    · have : c / columns < q := (Int.ediv_lt_iff_lt_mul hcpos).mpr (by linarith [mul_comm columns q])
      omega
    · exact (Int.le_ediv_iff_mul_le hcpos).mpr (by linarith [mul_comm columns (q - 1)])
  have hhalf : Int.tdiv 1 2 = 0 := by decide
  have hstart : windowStart ⟨columns, 1⟩ c (columns * q) = columns * q := by
    simp only [windowStart, Int.tdiv_eq_ediv hc0 (le_of_lt hcpos),
      Int.tdiv_eq_ediv hn0 (le_of_lt hcpos), hrow, hhalf,
      Int.mul_ediv_cancel_left q hcpos.ne']
    have htail : (q - 1 - 0) * columns + columns * 1 ≥ columns * q := by
      have : (q - 1 - 0) * columns + columns * 1 = columns * q := by ring
      omega
    rw [if_pos htail]
    have : columns * (q - 1 + 1) = columns * q := by ring
    rw [this, if_neg (by omega)]
  exact ⟨hstart, by rw [hstart]; omega⟩
/-- C1 at a failing input: with 5 columns, 1 row, 10 entries and the cursor on
entry 7 (all hypotheses of the claim hold) the window start computed by
`updateImages` is 10, so the window `[10, 15)` does not contain the cursor. -/
theorem windowStart_single_row_misses_cursor :
    ((1 : Int) ≤ 5 ∧ (1 : Int) ≤ 1 ∧ (5 : Int) * 1 ≤ 10 ∧ (0 : Int) ≤ 7 ∧ (7 : Int) < 10) ∧
    windowStart ⟨5, 1⟩ 7 10 = 10 ∧
    ¬ (windowStart ⟨5, 1⟩ 7 10 ≤ 7 ∧ 7 < windowStart ⟨5, 1⟩ 7 10 + 5 * 1) := by
  decide

/-- C7 at its own input: for 50 entries, 5 columns, 4 rows and cursor 47 the
window start computed by `updateImages` is 35, not 30, and the fourth row of
that window starts at entry 50, past the last entry. No cursor position of the
50 entries yields start 30, whereas with 52 entries starts 30 and 35 are both
reached. -/
theorem windowStart_tail_scenario :
    windowStart ⟨5, 4⟩ 47 50 = 35 ∧ windowStart ⟨5, 4⟩ 47 50 ≠ 30 ∧
    50 ≤ windowStart ⟨5, 4⟩ 47 50 + 5 * (4 - 1) ∧
    (∀ c : Fin 50, windowStart ⟨5, 4⟩ (c.val : Int) 50 ≠ 30) ∧
    windowStart ⟨5, 4⟩ 47 52 = 35 ∧ windowStart ⟨5, 4⟩ 42 52 = 30 := by
  decide

/-! ## Hot range -/

/-- C2 at a failing input: with 24 entries, cursor 0 and the default scale
modifier, `updateLoadRange` writes the range `{min = 0, max = 24}`, whose
upper end is the entry count itself and so not a valid index. -/
theorem updateLoadRange_max_reaches_entryCount :
    (updateLoadRange (freshGrid 24)).mCursorRange = { min := 0, max := 24, length := 24 } ∧
    (freshGrid 24).mTotalEntrys = 24 ∧
    ¬ ((updateLoadRange (freshGrid 24)).mCursorRange.max < (freshGrid 24).mTotalEntrys) := by
  have h : (updateLoadRange (freshGrid 24)).mCursorRange =
      { min := 0, max := 24, length := 24 } := by
    simp [updateLoadRange, freshGrid, getCursorIndex, truncToInt]
  refine ⟨h, by simp [freshGrid], ?_⟩
  rw [h]; simp [freshGrid]

/-- On an empty grid `updateLoadRange` writes `{min = 0, max = -1}`. -/
theorem updateLoadRange_empty_grid :
    (updateLoadRange (freshGrid 0)).mCursorRange = { min := 0, max := -1, length := -1 } := by
  simp [updateLoadRange, freshGrid, getCursorIndex, truncToInt]

/-- C8 at a failing input: with 30 entries, cursor 10 and scale modifier 5,
`updateLoadRange` sets `max = 30`, whereas
`min(entryCount - 1, cursor + 25 - scaleModifier) = 29`. -/
theorem updateLoadRange_max_not_clamped :
    (updateLoadRange scaledGrid).mCursorRange.max = 30 ∧
    hotRangeMaxSpec scaledGrid.mTotalEntrys (getCursorIndex scaledGrid) 5 = 29 ∧
    (updateLoadRange scaledGrid).mCursorRange.max ≠
      hotRangeMaxSpec scaledGrid.mTotalEntrys (getCursorIndex scaledGrid) 5 := by
  have h : (updateLoadRange scaledGrid).mCursorRange.max = 30 := by
    simp [updateLoadRange, scaledGrid, getCursorIndex, truncToInt]
  have h2 : hotRangeMaxSpec scaledGrid.mTotalEntrys (getCursorIndex scaledGrid) 5 = 29 := by
    simp [hotRangeMaxSpec, scaledGrid, getCursorIndex]
  refine ⟨h, h2, ?_⟩
  rw [h, h2]; decide

/-- C9: whenever `updateLoadRange` recomputes the range, for every integer
cursor, the lower bound it writes (`rmin = cursor - 10; if (rmin < 0) rmin +=
rmin * -1`) is exactly `max(0, cursor - 10)`, the value the specification
gives. -/
theorem updateLoadRange_min_eq_spec (s : ImageGridComponent) (h : rangeStale s) :
    (updateLoadRange s).mCursorRange.min = hotRangeMinSpec (getCursorIndex s) ∧
    (updateLoadRange s).mCursorRange.min = max 0 (s.mCursor - 10) := by
  unfold rangeStale at h
  unfold updateLoadRange
  rw [if_neg h]
  simp only [hotRangeMinSpec, getCursorIndex]
  constructor <;> split_ifs <;> omega

/-- C9 at a grid of forty entries whose cursor moved to entry 3. -/
theorem updateLoadRange_min_eq_spec_witness :
    rangeStale movedGrid ∧
    ((updateLoadRange movedGrid).mCursorRange.min = hotRangeMinSpec (getCursorIndex movedGrid) ∧
     (updateLoadRange movedGrid).mCursorRange.min = max 0 (movedGrid.mCursor - 10)) :=
  ⟨by decide, updateLoadRange_min_eq_spec movedGrid (by decide)⟩

/-! ## Scheduler: one tick -/

theorem foldl_modifyAt_getElem? (g : Entry → Entry) (hg : ∀ e, g (g e) = g e)
    (l : List Int) (es : List Entry) (j : Nat) :
    (l.foldl (fun es i => modifyAt g es i) es)[j]? =
      if (j : Int) ∈ l then es[j]?.map g else es[j]? := by
  induction l generalizing es with
  | nil => simp
  | cons a l ih =>
    simp only [List.foldl_cons, List.mem_cons]
    rw [ih, modifyAt_getElem?]
    by_cases h1 : (j : Int) ∈ l <;> by_cases h2 : (j : Int) = a <;>
      simp [h1, h2, Option.map_map, Function.comp_def, hg]

theorem foldl_modifyAt_length (g : Entry → Entry) (l : List Int) (es : List Entry) :
    (l.foldl (fun es i => modifyAt g es i) es).length = es.length := by
  induction l generalizing es with
  | nil => simp
  | cons a l ih => simp only [List.foldl_cons]; rw [ih, modifyAt_length]

/-- The tile refresh writes the tile array and nothing else. -/
theorem updateImages_eq (s : ImageGridComponent) :
    updateImages s = { s with mImages := (updateImages s).mImages } := by
  unfold updateImages buildImages
  by_cases h : s.mImages.isEmpty <;> simp [h]

theorem clearLoop_eq (l : List Int) (s : ImageGridComponent) :
    l.foldl (fun st i => clearImageAt st i) s =
      { s with mEntries := l.foldl (fun es i => clearImage es i) s.mEntries
               trace := s.trace ++ l.map Call.clearImage } := by
  induction l generalizing s with
  | nil => simp
  | cons a l ih =>
    simp only [List.foldl_cons, List.map_cons]
    rw [ih]
    simp [clearImageAt]

/-- A tick in the settled state does nothing. -/
theorem dynamicImageLoader_settled (rm : ResourceManager) (s : ImageGridComponent)
    (h : s.bLoading = false) (hu : s.bUnloaded = true) : dynamicImageLoader rm s = s := by
  simp [dynamicImageLoader, h, hu]

/-- A tick in the loading state: one load, a tile refresh, and either the load
cursor advances or the loading flag is cleared. -/
theorem dynamicImageLoader_loading (rm : ResourceManager) (s : ImageGridComponent)
    (h : s.bLoading = true) :
    dynamicImageLoader rm s =
      if s.mCurrentLoad < s.mCursorRange.max then
        { s with mEntries := loadTexture rm s.mEntries s.mCurrentLoad
                 trace := s.trace ++ [Call.loadTexture s.mCurrentLoad]
                 mImages := loadingTiles rm s
                 mCurrentLoad := s.mCurrentLoad + 1 }
      else
        { s with mEntries := loadTexture rm s.mEntries s.mCurrentLoad
                 trace := s.trace ++ [Call.loadTexture s.mCurrentLoad]
                 mImages := loadingTiles rm s
                 bLoading := false } := by
  unfold dynamicImageLoader loadingTiles
  simp only [h, if_true]
  rw [updateImages_eq]

/-- The unloading tick: the images at `evictedIndices` are cleared, in that
order, and the unloaded flag is set. -/
theorem dynamicImageLoader_unloading (rm : ResourceManager) (s : ImageGridComponent)
    (h : s.bLoading = false) (hu : s.bUnloaded = false) :
    dynamicImageLoader rm s =
      { s with mEntries := (evictedIndices s).foldl (fun es i => clearImage es i) s.mEntries
               trace := s.trace ++ (evictedIndices s).map Call.clearImage
               bUnloaded := true } := by
  unfold dynamicImageLoader evictedIndices
  simp only [h, hu, Bool.false_eq_true, if_false]
  cases hd : s.mCurrentDirection with
  | MOVING_DOWN =>
    simp only
    by_cases hmin : s.mCursorRange.min > 0
    · simp only [hmin, if_true]
      rw [← List.foldl_map (fun (i : Nat) => (i : Int)) (fun st i => clearImageAt st i),
        clearLoop_eq]
      simp [hd, h]
    · have h0 : s.mCursorRange.min.toNat = 0 := by omega
      simp [hmin, h0, h, hd]
  | MOVING_UP =>
    simp only
    by_cases hmax : s.mCursorRange.max < s.mTotalEntrys
    · simp only [hmax, if_true]
      rw [← List.foldl_map (fun (k : Nat) => s.mTotalEntrys - 1 - (k : Int))
        (fun st i => clearImageAt st i), clearLoop_eq]
      simp [hd, h]
    · have h0 : (s.mTotalEntrys - 1 - s.mCursorRange.max).toNat = 0 := by omega
      simp [hmax, h0, h, hd]

theorem mem_evictedIndices (s : ImageGridComponent) (i : Int) :
    i ∈ evictedIndices s ↔
      (s.mCurrentDirection = UserDirection.MOVING_DOWN ∧ 0 ≤ i ∧ i < s.mCursorRange.min) ∨
      (s.mCurrentDirection = UserDirection.MOVING_UP ∧
        s.mCursorRange.max < i ∧ i < s.mTotalEntrys) := by
  unfold evictedIndices
  cases hd : s.mCurrentDirection with
  | MOVING_DOWN =>
    simp only [List.mem_map, List.mem_range]
    constructor
    · rintro ⟨k, hk, rfl⟩
      exact Or.inl ⟨trivial, by omega, by omega⟩
    · rintro (⟨_, h1, h2⟩ | ⟨hc, _⟩)
      · exact ⟨i.toNat, by omega, by omega⟩
      · cases hc
  | MOVING_UP =>
    simp only [List.mem_map, List.mem_range]
    constructor
    · rintro ⟨k, hk, rfl⟩
      exact Or.inr ⟨trivial, by omega, by omega⟩
    · rintro (⟨hc, _⟩ | ⟨_, h1, h2⟩)
      · cases hc
      · exact ⟨(s.mTotalEntrys - 1 - i).toNat, by omega, by omega⟩

/-- A tick never writes the cursor, the last observed cursor, the hot range,
the entry count, the scale modifier, the viewport or the direction. -/
theorem dynamicImageLoader_frame (rm : ResourceManager) (s : ImageGridComponent) :
    (dynamicImageLoader rm s).mCursor = s.mCursor ∧
    (dynamicImageLoader rm s).mPrevIndex = s.mPrevIndex ∧
    (dynamicImageLoader rm s).mCursorRange = s.mCursorRange ∧
    (dynamicImageLoader rm s).mTotalEntrys = s.mTotalEntrys ∧
    (dynamicImageLoader rm s).mGridMod = s.mGridMod ∧
    (dynamicImageLoader rm s).mSize = s.mSize ∧
    (dynamicImageLoader rm s).mCurrentDirection = s.mCurrentDirection := by
  cases hb : s.bLoading with
  | true =>
    rw [dynamicImageLoader_loading rm s hb]
    split_ifs <;> simp
  | false =>
    cases hu : s.bUnloaded with
    | true => rw [dynamicImageLoader_settled rm s hb hu]; simp
    | false => rw [dynamicImageLoader_unloading rm s hb hu]; simp

/-- C5: when the unloading step runs (loading finished, nothing unloaded yet)
the tick calls `clearImageAt` and nothing else; moving down, the cleared
indices are exactly those with `0 ≤ i < min`, moving up exactly those with
`max < i < entryCount`; every entry at a cleared index loses its image, every
other entry is untouched, and no index inside `[min, max]` is cleared. -/
theorem dynamicImageLoader_evicts_opposite_side (rm : ResourceManager) (s : ImageGridComponent)
    (hl : s.bLoading = false) (hu : s.bUnloaded = false) :
    ∃ cleared : List Int,
      (dynamicImageLoader rm s).trace = s.trace ++ cleared.map Call.clearImage ∧
      (s.mCurrentDirection = UserDirection.MOVING_DOWN →
        ∀ i : Int, i ∈ cleared ↔ 0 ≤ i ∧ i < s.mCursorRange.min) ∧
      (s.mCurrentDirection = UserDirection.MOVING_UP →
        ∀ i : Int, i ∈ cleared ↔ s.mCursorRange.max < i ∧ i < s.mTotalEntrys) ∧
      (∀ (j : Nat) (e : Entry), s.mEntries[j]? = some e →
        (dynamicImageLoader rm s).mEntries[j]? =
          some (if (j : Int) ∈ cleared then { e with texture := none } else e)) ∧
      (∀ i : Int, s.mCursorRange.min ≤ i → i ≤ s.mCursorRange.max → i ∉ cleared) ∧
      (dynamicImageLoader rm s).mEntries.length = s.mEntries.length ∧
      (dynamicImageLoader rm s).bLoading = false ∧
      (dynamicImageLoader rm s).bUnloaded = true := by
  refine ⟨evictedIndices s, ?_⟩
  rw [dynamicImageLoader_unloading rm s hl hu]
  refine ⟨rfl, ?_, ?_, ?_, ?_, ?_, hl, rfl⟩
  · intro hd i
    rw [mem_evictedIndices]; simp [hd]
  · intro hd i
    rw [mem_evictedIndices]; simp [hd]
  · intro j e he
    have := foldl_modifyAt_getElem? (fun e => { e with texture := none }) (by intro e; rfl)
      (evictedIndices s) s.mEntries j
    simp only [clearImage]
    rw [this, he]
    split_ifs <;> rfl
  · intro i h1 h2 hmem
    rw [mem_evictedIndices] at hmem
    omega
  · exact foldl_modifyAt_length _ _ _

/-- C5 at forty entries with hot range `[10, 39]`, moving down. -/
theorem dynamicImageLoader_evicts_opposite_side_witness :
    (loadedGrid.bLoading = false ∧ loadedGrid.bUnloaded = false) ∧
    ∃ cleared : List Int,
      (dynamicImageLoader squareCovers loadedGrid).trace =
        loadedGrid.trace ++ cleared.map Call.clearImage ∧
      (loadedGrid.mCurrentDirection = UserDirection.MOVING_DOWN →
        ∀ i : Int, i ∈ cleared ↔ 0 ≤ i ∧ i < loadedGrid.mCursorRange.min) ∧
      (loadedGrid.mCurrentDirection = UserDirection.MOVING_UP →
        ∀ i : Int, i ∈ cleared ↔ loadedGrid.mCursorRange.max < i ∧ i < loadedGrid.mTotalEntrys) ∧
      (∀ (j : Nat) (e : Entry), loadedGrid.mEntries[j]? = some e →
        (dynamicImageLoader squareCovers loadedGrid).mEntries[j]? =
          some (if (j : Int) ∈ cleared then { e with texture := none } else e)) ∧
      (∀ i : Int, loadedGrid.mCursorRange.min ≤ i → i ≤ loadedGrid.mCursorRange.max →
        i ∉ cleared) ∧
      (dynamicImageLoader squareCovers loadedGrid).mEntries.length = loadedGrid.mEntries.length ∧
      (dynamicImageLoader squareCovers loadedGrid).bLoading = false ∧
      (dynamicImageLoader squareCovers loadedGrid).bUnloaded = true :=
  ⟨⟨rfl, rfl⟩, dynamicImageLoader_evicts_opposite_side squareCovers loadedGrid rfl rfl⟩

/-! ## Scheduler: the loading pass -/

theorem loadRun_succ (rm : ResourceManager) (entries : List Entry) (start : Int) (k : Nat) :
    loadRun rm entries start (k + 1) = loadTexture rm (loadRun rm entries start k) (start + k) := by
  simp [loadRun, List.range_succ, List.foldl_append]

theorem loadCalls_succ (start : Int) (k : Nat) :
    loadCalls start (k + 1) = loadCalls start k ++ [Call.loadTexture (start + k)] := by
  simp [loadCalls, List.range_succ]

theorem mem_loadCalls (start : Int) (k : Nat) (i : Int) :
    Call.loadTexture i ∈ loadCalls start k ↔ start ≤ i ∧ i < start + k := by
  simp only [loadCalls, List.mem_map, List.mem_range, Call.loadTexture.injEq]
  constructor
  · rintro ⟨j, hj, rfl⟩; omega
  · intro hi; exact ⟨(i - start).toNat, by omega, by omega⟩

theorem clearImage_not_mem_loadCalls (start : Int) (k : Nat) (i : Int) :
    Call.clearImage i ∉ loadCalls start k := by
  simp [loadCalls]

theorem loadRun_getElem? (rm : ResourceManager) (es : List Entry) (start : Int) (k j : Nat) :
    (loadRun rm es start k)[j]? =
      if start ≤ (j : Int) ∧ (j : Int) < start + k then
        es[j]?.map (fun e => { e with texture := some (loadedTexture rm e) })
      else es[j]? := by
  have h := foldl_modifyAt_getElem?
    (fun e => { e with texture := some (loadedTexture rm e) }) (by intro e; rfl)
    ((List.range k).map (fun i : Nat => start + (i : Int))) es j
  rw [List.foldl_map] at h
  have hmem : ((j : Int) ∈ (List.range k).map (fun i : Nat => start + (i : Int))) ↔
      (start ≤ (j : Int) ∧ (j : Int) < start + k) := by
    simp only [List.mem_map, List.mem_range]
    constructor
    · rintro ⟨i, hi, hij⟩; omega
    · intro hj; exact ⟨((j : Int) - start).toNat, by omega, by omega⟩
  simp only [hmem] at h
  simpa [loadRun, loadTexture] using h

/-- While the load cursor is below `max`, `k` ticks load the `k` entries from
the load cursor on and advance the load cursor by `k`. -/
theorem loading_iterate (rm : ResourceManager) (s : ImageGridComponent) (h : s.bLoading = true) :
    ∀ k : Nat, k ≤ (s.mCursorRange.max - s.mCurrentLoad).toNat →
      ∃ imgs, (dynamicImageLoader rm)^[k] s =
        { s with mEntries := loadRun rm s.mEntries s.mCurrentLoad k
                 trace := s.trace ++ loadCalls s.mCurrentLoad k
                 mImages := imgs
                 mCurrentLoad := s.mCurrentLoad + k } := by
  intro k
  induction k with
  | zero =>
    intro _
    exact ⟨s.mImages, by simp [loadRun, loadCalls]⟩
  | succ k ih =>
    intro hk
    obtain ⟨imgs, hi⟩ := ih (by omega)
    rw [Function.iterate_succ_apply', hi, dynamicImageLoader_loading]
    · have hlt : s.mCurrentLoad + (k : Int) < s.mCursorRange.max := by omega
      simp only [hlt, if_true]
      simp only [loadRun_succ, loadCalls_succ, List.append_assoc, Nat.cast_add, Nat.cast_one,
        add_assoc]
      exact ⟨_, rfl⟩
    · exact h

/-- The loading pass ends: after `(max - load cursor) + 1` ticks (one tick
when the load cursor is already at or beyond `max`) the loading flag is
cleared. -/
theorem loading_finish (rm : ResourceManager) (s : ImageGridComponent) (h : s.bLoading = true) :
    ∃ imgs, (dynamicImageLoader rm)^[(s.mCursorRange.max - s.mCurrentLoad).toNat + 1] s =
      { s with mEntries := loadRun rm s.mEntries s.mCurrentLoad
                              ((s.mCursorRange.max - s.mCurrentLoad).toNat + 1)
               trace := s.trace ++ loadCalls s.mCurrentLoad
                              ((s.mCursorRange.max - s.mCurrentLoad).toNat + 1)
               mImages := imgs
               mCurrentLoad := s.mCurrentLoad + (s.mCursorRange.max - s.mCurrentLoad).toNat
               bLoading := false } := by
  obtain ⟨imgs, hi⟩ := loading_iterate rm s h (s.mCursorRange.max - s.mCurrentLoad).toNat le_rfl
  rw [Function.iterate_succ_apply', hi, dynamicImageLoader_loading]
  · have hlt : ¬ (s.mCurrentLoad + ((s.mCursorRange.max - s.mCurrentLoad).toNat : Int)
        < s.mCursorRange.max) := by omega
    simp only [hlt, if_false]
    simp only [loadRun_succ, loadCalls_succ, List.append_assoc]
    exact ⟨_, rfl⟩
  · exact h

/-- One tick after the loading pass the scheduler is settled. -/
theorem settled_after_loading (rm : ResourceManager) (s : ImageGridComponent)
    (hb : s.bLoading = true) (hu : s.bUnloaded = false) :
    ((dynamicImageLoader rm)^[(s.mCursorRange.max - s.mCurrentLoad).toNat + 2] s).bLoading = false ∧
    ((dynamicImageLoader rm)^[(s.mCursorRange.max - s.mCurrentLoad).toNat + 2] s).bUnloaded = true := by
  obtain ⟨imgs, hfin⟩ := loading_finish rm s hb
  rw [Function.iterate_succ_apply', dynamicImageLoader_unloading rm _ (by rw [hfin])
    (by rw [hfin]; exact hu)]
  exact ⟨by simp only; rw [hfin], rfl⟩

/-- What a recomputing `updateLoadRange` leaves behind: loading flag set,
unloaded flag clear, load cursor at `min`, entries and trace untouched. -/
theorem updateLoadRange_stale (s : ImageGridComponent) (h : rangeStale s) :
    (updateLoadRange s).bLoading = true ∧ (updateLoadRange s).bUnloaded = false ∧
    (updateLoadRange s).mCurrentLoad = (updateLoadRange s).mCursorRange.min ∧
    (updateLoadRange s).mEntries = s.mEntries ∧ (updateLoadRange s).trace = s.trace := by
  unfold rangeStale at h
  unfold updateLoadRange
  rw [if_neg h]
  simp

/-- C6 at the single-entry grid: `updateLoadRange` produces the range
`{min = 0, max = 0, length = 0}`; two ticks later the scheduler is settled
(loading flag clear, unloaded flag set) and the cursor still equals the last
observed one, yet a second `updateLoadRange` sets the loading flag again,
clears the unloaded flag and resets the load cursor. -/
theorem updateLoadRange_single_entry_retriggers :
    (updateLoadRange singleEntry).mCursorRange = { min := 0, max := 0, length := 0 } ∧
    ((dynamicImageLoader squareCovers)^[2] (updateLoadRange singleEntry)).bLoading = false ∧
    ((dynamicImageLoader squareCovers)^[2] (updateLoadRange singleEntry)).bUnloaded = true ∧
    getCursorIndex ((dynamicImageLoader squareCovers)^[2] (updateLoadRange singleEntry)) =
      ((dynamicImageLoader squareCovers)^[2] (updateLoadRange singleEntry)).mPrevIndex ∧
    (updateLoadRange
      ((dynamicImageLoader squareCovers)^[2] (updateLoadRange singleEntry))).bLoading = true ∧
    (updateLoadRange
      ((dynamicImageLoader squareCovers)^[2] (updateLoadRange singleEntry))).bUnloaded = false ∧
    (updateLoadRange
      ((dynamicImageLoader squareCovers)^[2] (updateLoadRange singleEntry))).mCurrentLoad = 0 := by
  have h0 : updateLoadRange singleEntry =
      { singleEntry with mCursorRange := { min := 0, max := 0, length := 0 }, bLoading := true } := by
    simp [updateLoadRange, singleEntry, getCursorIndex]
  have hset := settled_after_loading squareCovers (updateLoadRange singleEntry)
    (by rw [h0]) (by rw [h0]; rfl)
  have hn : ((updateLoadRange singleEntry).mCursorRange.max
      - (updateLoadRange singleEntry).mCurrentLoad).toNat + 2 = 2 := by
    rw [h0]; rfl
  rw [hn] at hset
  have f1 := dynamicImageLoader_frame squareCovers (updateLoadRange singleEntry)
  have f2 := dynamicImageLoader_frame squareCovers
    (dynamicImageLoader squareCovers (updateLoadRange singleEntry))
  have e2 : (dynamicImageLoader squareCovers)^[2] (updateLoadRange singleEntry) =
      dynamicImageLoader squareCovers
        (dynamicImageLoader squareCovers (updateLoadRange singleEntry)) := rfl
  rw [e2] at hset ⊢
  generalize dynamicImageLoader squareCovers
    (dynamicImageLoader squareCovers (updateLoadRange singleEntry)) = t at *
  obtain ⟨c2, p2, r2, n2, -⟩ := f2
  obtain ⟨c1, p1, r1, n1, -⟩ := f1
  rw [c1, h0] at c2
  rw [p1, h0] at p2
  rw [r1, h0] at r2
  simp only at c2 p2 r2
  have hstale : ¬ (getCursorIndex t = t.mPrevIndex ∧ t.mCursorRange.length > 0) := by
    rw [r2]; simp
  refine ⟨by rw [h0], hset.1, hset.2, ?_, ?_, ?_, ?_⟩
  · rw [getCursorIndex, c2, p2]; rfl
  · unfold updateLoadRange; rw [if_neg hstale]
  · unfold updateLoadRange; rw [if_neg hstale]
  · unfold updateLoadRange; rw [if_neg hstale]
    simp only [getCursorIndex, c2]
    rfl

/-! ## Tile size floor -/

theorem maxStep_eq (sq c : Vector2f) :
    (if c.y > (if c.x > sq.x then (⟨c.x, sq.y⟩ : Vector2f) else sq).y then
        (⟨(if c.x > sq.x then (⟨c.x, sq.y⟩ : Vector2f) else sq).x, c.y⟩ : Vector2f)
      else (if c.x > sq.x then (⟨c.x, sq.y⟩ : Vector2f) else sq)) =
      ⟨max sq.x c.x, max sq.y c.y⟩ := by
  rcases lt_or_le sq.x c.x with hx | hx <;> rcases lt_or_le sq.y c.y with hy | hy
  · simp [hx, hy, max_eq_right (le_of_lt hx), max_eq_right (le_of_lt hy)]
  · simp [hx, not_lt.mpr hy, max_eq_right (le_of_lt hx), max_eq_left hy]
  · simp [not_lt.mpr hx, hy, max_eq_left hx, max_eq_right (le_of_lt hy)]
  · simp [not_lt.mpr hx, not_lt.mpr hy, max_eq_left hx, max_eq_left hy]

theorem getMaxSquareSize_fold_eq (m : ℚ) (l : List Entry) (init : Vector2f) :
    l.foldl
      (fun squareSize it =>
        let chkSize := getSquareSize m it.texture
        let squareSize : Vector2f :=
          if chkSize.x > squareSize.x then ⟨chkSize.x, squareSize.y⟩ else squareSize
        if chkSize.y > squareSize.y then ⟨squareSize.x, chkSize.y⟩ else squareSize) init =
      ⟨(l.map (fun e => (getSquareSize m e.texture).x)).foldl max init.x,
       (l.map (fun e => (getSquareSize m e.texture).y)).foldl max init.y⟩ := by
  induction l generalizing init with
  | nil => simp
  | cons e l ih =>
    simp only [List.foldl_cons, List.map_cons]
    rw [maxStep_eq init (getSquareSize m e.texture), ih]

theorem foldl_max_ge (l : List ℚ) (a : ℚ) :
    a ≤ l.foldl max a ∧ (∀ v ∈ l, v ≤ l.foldl max a) ∧
      (l.foldl max a = a ∨ l.foldl max a ∈ l) := by
  induction l generalizing a with
  | nil => simp
  | cons b l ih =>
    simp only [List.foldl_cons, List.mem_cons]
    obtain ⟨h1, h2, h3⟩ := ih (max a b)
    refine ⟨le_trans (le_max_left a b) h1, ?_, ?_⟩
    · rintro v (rfl | hv)
      · exact le_trans (le_max_right a v) h1
      · exact h2 v hv
    · rcases h3 with h3 | h3
      · rw [h3]
        rcases max_choice a b with h | h
        · exact Or.inl h
        · exact Or.inr (Or.inl h)
      · exact Or.inr (Or.inr h3)

/-- C11: for every scale modifier and every list of entries (with or without
textures, of any size), the tile size returned by `getMaxSquareSize` is at
least 32 on both axes, and on each axis it is the maximum of 32 and the
`getSquareSize` values of all entries: it bounds every one of them and is
either 32 or attained by an entry. -/
theorem getMaxSquareSize_floor_and_max (s : ImageGridComponent) :
    (32 ≤ (getMaxSquareSize s).x ∧ 32 ≤ (getMaxSquareSize s).y) ∧
    (getMaxSquareSize s).x =
      (s.mEntries.map (fun e => (getSquareSize s.mGridMod e.texture).x)).foldl max 32 ∧
    (getMaxSquareSize s).y =
      (s.mEntries.map (fun e => (getSquareSize s.mGridMod e.texture).y)).foldl max 32 ∧
    (∀ e ∈ s.mEntries, (getSquareSize s.mGridMod e.texture).x ≤ (getMaxSquareSize s).x ∧
      (getSquareSize s.mGridMod e.texture).y ≤ (getMaxSquareSize s).y) ∧
    ((getMaxSquareSize s).x = 32 ∨
      ∃ e ∈ s.mEntries, (getMaxSquareSize s).x = (getSquareSize s.mGridMod e.texture).x) ∧
    ((getMaxSquareSize s).y = 32 ∨
      ∃ e ∈ s.mEntries, (getMaxSquareSize s).y = (getSquareSize s.mGridMod e.texture).y) := by
  have heq : getMaxSquareSize s =
      ⟨(s.mEntries.map (fun e => (getSquareSize s.mGridMod e.texture).x)).foldl max 32,
       (s.mEntries.map (fun e => (getSquareSize s.mGridMod e.texture).y)).foldl max 32⟩ :=
    getMaxSquareSize_fold_eq s.mGridMod s.mEntries ⟨32, 32⟩
  obtain ⟨x1, x2, x3⟩ :=
    foldl_max_ge (s.mEntries.map (fun e => (getSquareSize s.mGridMod e.texture).x)) 32
  obtain ⟨y1, y2, y3⟩ :=
    foldl_max_ge (s.mEntries.map (fun e => (getSquareSize s.mGridMod e.texture).y)) 32
  rw [heq]
  refine ⟨⟨x1, y1⟩, rfl, rfl, ?_, ?_, ?_⟩
  · intro e he
    exact ⟨x2 _ (List.mem_map.mpr ⟨e, he, rfl⟩), y2 _ (List.mem_map.mpr ⟨e, he, rfl⟩)⟩
  · rcases x3 with h | h
    · exact Or.inl h
    · obtain ⟨e, he, hv⟩ := List.mem_map.mp h
      exact Or.inr ⟨e, he, hv.symm⟩
  · rcases y3 with h | h
    · exact Or.inl h
    · obtain ⟨e, he, hv⟩ := List.mem_map.mp h
      exact Or.inr ⟨e, he, hv.symm⟩

/-! ## Invalid viewport -/

theorem truncToInt_nonpos {q : ℚ} (h : q ≤ 0) : truncToInt q ≤ 0 := by
  unfold truncToInt
  split_ifs with h0
  · have : q = 0 := le_antisymm h h0
    simp [this]
  · exact Int.ceil_le.mpr (by simpa using h)

/-- C12, as stated, fails: for a viewport of width -300 the specification
calls for an error, while `getGridSize` returns the grid `(-5, 10)`. -/
theorem getGridSize_negative_viewport :
    negativeViewport.mSize.x ≤ 0 ∧
    computeGridGeometrySpec negativeViewport.mSize (getMaxSquareSize negativeViewport) getPadding
      = none ∧
    getGridSize negativeViewport = ⟨-5, 10⟩ ∧
    (getGridSize negativeViewport).x ≤ 0 ∧
    some (getGridSize negativeViewport) ≠
      computeGridGeometrySpec negativeViewport.mSize (getMaxSquareSize negativeViewport)
        getPadding := by
  have hg : getGridSize negativeViewport = ⟨-5, 10⟩ := by
    simp [getGridSize, getMaxSquareSize, getPadding, negativeViewport, truncToInt]
    norm_num
    rw [Int.ceil_eq_iff]
    constructor <;> norm_num
  have hs : computeGridGeometrySpec negativeViewport.mSize (getMaxSquareSize negativeViewport)
      getPadding = none := by
    simp [computeGridGeometrySpec, negativeViewport]
  refine ⟨by norm_num [negativeViewport], hs, hg, by rw [hg]; norm_num, by rw [hs]; simp⟩

/-- C12 (amended): `getGridSize` has no error path; for every viewport it
returns the truncated quotients of the viewport extent by tile size plus 24,
so a zero or negative width yields `columns ≤ 0` and a zero or negative height
yields `rows ≤ 0`. -/
theorem getGridSize_total (s : ImageGridComponent) :
    getGridSize s =
      ⟨truncToInt (s.mSize.x / ((getMaxSquareSize s).x + 24)),
       truncToInt (s.mSize.y / ((getMaxSquareSize s).y + 24))⟩ ∧
    (s.mSize.x ≤ 0 → (getGridSize s).x ≤ 0) ∧
    (s.mSize.y ≤ 0 → (getGridSize s).y ≤ 0) := by
  have hx := (getMaxSquareSize_ge s).1
  have hy := (getMaxSquareSize_ge s).2
  refine ⟨rfl, ?_, ?_⟩
  · intro hw
    apply truncToInt_nonpos
    exact div_nonpos_of_nonpos_of_nonneg hw (by simp only [getPadding]; linarith)
  · intro hh
    apply truncToInt_nonpos
    exact div_nonpos_of_nonpos_of_nonneg hh (by simp only [getPadding]; linarith)

/-- The amended C12 at a viewport of width -300: no error, a non-positive
column count. -/
theorem getGridSize_total_witness :
    negativeViewport.mSize.x ≤ 0 ∧ (getGridSize negativeViewport).x ≤ 0 :=
  ⟨by norm_num [negativeViewport],
   (getGridSize_total negativeViewport).2.1 (by norm_num [negativeViewport])⟩

/-! ## Visible window: small collections, top clamp, row alignment -/

/-- C13: for `columns ≥ 1`, `rows ≥ 1`, `0 ≤ entryCount < columns * rows` and
every cursor `c ≥ 0`, the window start computed by `updateImages` is 0, so
every entry index lies inside the window of `columns * rows` tiles. -/
theorem windowStart_small_collection (columns rows entryCount c : Int)
    (hcol : 1 ≤ columns) (hrow : 1 ≤ rows) (hn0 : 0 ≤ entryCount)
    (hsmall : entryCount < columns * rows) (h0 : 0 ≤ c) :
    windowStart ⟨columns, rows⟩ c entryCount = 0 ∧
    ∀ j : Int, 0 ≤ j → j < entryCount →
      windowStart ⟨columns, rows⟩ c entryCount ≤ j ∧
        j < windowStart ⟨columns, rows⟩ c entryCount + columns * rows := by
  have hcpos : 0 < columns := by omega
  have hstart : windowStart ⟨columns, rows⟩ c entryCount = 0 := by
    simp only [windowStart, Int.tdiv_eq_ediv h0 (le_of_lt hcpos),
      Int.tdiv_eq_ediv (show (0 : Int) ≤ rows by omega) (by norm_num : (0 : Int) ≤ 2),
      Int.tdiv_eq_ediv hn0 (le_of_lt hcpos)]
    obtain ⟨r, hr⟩ : ∃ r, r = c / columns := ⟨_, rfl⟩
    obtain ⟨q, hq⟩ : ∃ q, q = entryCount / columns := ⟨_, rfl⟩
    obtain ⟨h, hh⟩ : ∃ h, h = rows / 2 := ⟨_, rfl⟩
    rw [← hr, ← hq, ← hh]
    have q1 : columns * q ≤ entryCount := by
      rw [hq]; exact Int.mul_ediv_self_le (ne_of_gt hcpos)
    have hq_lt : q < rows := by
      by_contra hcon
      have : rows ≤ q := by omega
      nlinarith
    by_cases htail : (r - h) * columns + columns * rows ≥ entryCount
    · simp only [htail, if_true]
      have hle : columns * (q - rows + 1) ≤ 0 := by
        have : q - rows + 1 ≤ 0 := by omega
        nlinarith
      split_ifs with hneg
      · rfl
      · omega
    · simp only [htail, if_false]
      have hneg : (r - h) * columns < 0 := by nlinarith
      simp [hneg]
  refine ⟨hstart, ?_⟩
  intro j hj0 hjn
  rw [hstart]
  omega

/-- C13 at 12 entries in a 5 x 4 grid, cursor 7. -/
theorem windowStart_small_collection_witness :
    ((1 : Int) ≤ 5 ∧ (1 : Int) ≤ 4 ∧ (0 : Int) ≤ 12 ∧ (12 : Int) < 5 * 4 ∧ (0 : Int) ≤ 7) ∧
    (windowStart ⟨5, 4⟩ 7 12 = 0 ∧
      ∀ j : Int, 0 ≤ j → j < 12 →
        windowStart ⟨5, 4⟩ 7 12 ≤ j ∧ j < windowStart ⟨5, 4⟩ 7 12 + 5 * 4) :=
  ⟨by decide,
   windowStart_small_collection 5 4 12 7 (by decide) (by decide) (by decide) (by decide)
     (by decide)⟩

/-- C14: for `columns ≥ 1`, `rows ≥ 1` and a cursor `0 ≤ c < entryCount` whose
row `c / columns` is less than `rows / 2`, the window start computed by
`updateImages` is 0. -/
theorem windowStart_top_clamp (columns rows entryCount c : Int)
    (hcol : 1 ≤ columns) (hrow : 1 ≤ rows) (h0 : 0 ≤ c) (hc : c < entryCount)
    (htop : Int.tdiv c columns < Int.tdiv rows 2) :
    windowStart ⟨columns, rows⟩ c entryCount = 0 := by
  have hcpos : 0 < columns := by omega
  have hn0 : 0 ≤ entryCount := by omega
  rw [Int.tdiv_eq_ediv h0 (le_of_lt hcpos),
    Int.tdiv_eq_ediv (show (0 : Int) ≤ rows by omega) (by norm_num : (0 : Int) ≤ 2)] at htop
  simp only [windowStart, Int.tdiv_eq_ediv h0 (le_of_lt hcpos),
    Int.tdiv_eq_ediv (show (0 : Int) ≤ rows by omega) (by norm_num : (0 : Int) ≤ 2),
    Int.tdiv_eq_ediv hn0 (le_of_lt hcpos)]
  obtain ⟨r, hr⟩ : ∃ r, r = c / columns := ⟨_, rfl⟩
  obtain ⟨q, hq⟩ : ∃ q, q = entryCount / columns := ⟨_, rfl⟩
  obtain ⟨h, hh⟩ : ∃ h, h = rows / 2 := ⟨_, rfl⟩
  rw [← hr, ← hh] at htop
  rw [← hr, ← hq, ← hh]
  have q1 : columns * q ≤ entryCount := by
    rw [hq]; exact Int.mul_ediv_self_le (ne_of_gt hcpos)
  by_cases htail : (r - h) * columns + columns * rows ≥ entryCount
  · simp only [htail, if_true]
    have hq_le : q - rows + 1 ≤ 0 := by
      by_contra hcon
      have h1 : rows ≤ q := by omega
      have h2 : r - h + rows + 1 ≤ q := by omega
      nlinarith
    have hle : columns * (q - rows + 1) ≤ 0 := by nlinarith
    split_ifs with hneg
    · rfl
    · omega
  · simp only [htail, if_false]
    have hneg : (r - h) * columns < 0 := by nlinarith
    simp [hneg]

/-- C14 at the scenario of the specification: 50 entries, 5 columns, 4 rows,
cursor 2. -/
theorem windowStart_top_clamp_witness :
    ((1 : Int) ≤ 5 ∧ (1 : Int) ≤ 4 ∧ (0 : Int) ≤ 2 ∧ (2 : Int) < 50 ∧
      Int.tdiv 2 5 < Int.tdiv 4 2) ∧
    windowStart ⟨5, 4⟩ 2 50 = 0 :=
  ⟨by decide,
   windowStart_top_clamp 5 4 50 2 (by decide) (by decide) (by decide) (by decide) (by decide)⟩

/-- C20: for every grid size, cursor and entry count, the window start
computed by `updateImages` is non-negative and a multiple of the column count,
so the cursor has the same column inside the window as in the list. -/
theorem windowStart_row_aligned (gridSize : Vector2i) (mCursor size : Int) :
    0 ≤ windowStart gridSize mCursor size ∧
    gridSize.x ∣ windowStart gridSize mCursor size ∧
    (mCursor - windowStart gridSize mCursor size) % gridSize.x = mCursor % gridSize.x := by
  have hdvd : gridSize.x ∣ windowStart gridSize mCursor size := by
    unfold windowStart
    simp only
    split_ifs
    · exact dvd_zero _
    · exact dvd_mul_right _ _
    · exact dvd_zero _
    · exact dvd_mul_left _ _
  refine ⟨?_, hdvd, ?_⟩
  · unfold windowStart
    simp only
    split_ifs <;> omega
  · obtain ⟨k, hk⟩ := hdvd
    have hsub : mCursor - gridSize.x * k = mCursor + gridSize.x * (-k) := by ring
    rw [hk, hsub, Int.add_mul_emod_self_left]

/-! ## Facade -/

/-- C15: `add` with `loadTextureNow = false` appends one entry holding the
frame placeholder, whatever the path; with `loadTextureNow = true` the new
entry holds the texture of the path when the file exists and the blank
placeholder when it does not. In both cases the old entries are kept in
order, the new entry is last, the entry count grows by one and the layout is
marked dirty. -/
theorem add_appends_entry (rm : ResourceManager) (name imagePath : String)
    (s : ImageGridComponent) :
    (add rm name imagePath false s).mEntries =
      s.mEntries ++ [{ name := name, strdata := imagePath,
                       texture := some (TextureResource.get rm ":/frame.png") }] ∧
    (rm.fileExists imagePath = true →
      (add rm name imagePath true s).mEntries =
        s.mEntries ++ [{ name := name, strdata := imagePath,
                         texture := some (TextureResource.get rm imagePath) }]) ∧
    (rm.fileExists imagePath = false →
      (add rm name imagePath true s).mEntries =
        s.mEntries ++ [{ name := name, strdata := imagePath,
                         texture := some (TextureResource.get rm ":/blank_game.png") }]) ∧
    (∀ loadTextureNow : Bool,
      (add rm name imagePath loadTextureNow s).mEntries.length = s.mEntries.length + 1 ∧
      (add rm name imagePath loadTextureNow s).mTotalEntrys = s.mTotalEntrys + 1 ∧
      (add rm name imagePath loadTextureNow s).mEntriesDirty = true ∧
      (add rm name imagePath loadTextureNow s).mEntries.take s.mEntries.length = s.mEntries ∧
      ∃ e, (add rm name imagePath loadTextureNow s).mEntries.getLast? = some e ∧
        e.name = name ∧ e.strdata = imagePath) := by
  refine ⟨by simp [add, listAdd], ?_, ?_, ?_⟩
  · intro h; simp [add, listAdd, h]
  · intro h; simp [add, listAdd, h]
  · intro b
    simp [add, listAdd]

/-- C15 at a path that exists, added to a grid of three entries. -/
theorem add_appends_entry_witness :
    squareCovers.fileExists zeldaPath = true ∧
    (add squareCovers zeldaName zeldaPath true (freshGrid 3)).mEntries =
      (freshGrid 3).mEntries ++
        [{ name := zeldaName, strdata := zeldaPath,
           texture := some (TextureResource.get squareCovers zeldaPath) }] :=
  ⟨rfl, (add_appends_entry squareCovers zeldaName zeldaPath (freshGrid 3)).2.1 rfl⟩

/-! ## Rebuild and cursor change -/

theorem buildImages_eq (s : ImageGridComponent) :
    buildImages s = { s with mImages := (buildImages s).mImages } := rfl

theorem buildImages_congr (s : ImageGridComponent) (imgs : List ImageComponent) :
    buildImages { s with mImages := imgs } = buildImages s := rfl

/-- On the total functions, the rebuild run twice leaves the same component as
the rebuild run once. -/
theorem rebuild_twice_eq (s : ImageGridComponent) :
    onSizeChanged (onSizeChanged s) = onSizeChanged s ∧
    (onSizeChanged (onSizeChanged s)).mImages = (onSizeChanged s).mImages := by
  have h1 : updateImages (buildImages s) =
      { s with mImages := (updateImages (buildImages s)).mImages } := by
    conv_lhs => rw [updateImages_eq]
    rfl
  have h2 : buildImages (updateImages (buildImages s)) = buildImages s := by
    conv_lhs => rw [h1]
    exact buildImages_congr s _
  have h : onSizeChanged (onSizeChanged s) = onSizeChanged s := by
    unfold onSizeChanged
    rw [h2]
  exact ⟨h, by rw [h]⟩

/-- C17: from every state, an `updateLoadRange` call whose cursor differs from
the last observed one sets the loading flag, clears the unloaded flag, puts
the load cursor on the new `min`, records direction up exactly when the new
cursor is smaller than the previous one and down otherwise, stores the new
cursor as the last observed one, and changes neither the entries nor the
trace of texture calls. -/
theorem updateLoadRange_cursor_change (s : ImageGridComponent)
    (h : getCursorIndex s ≠ s.mPrevIndex) :
    (updateLoadRange s).bLoading = true ∧
    (updateLoadRange s).bUnloaded = false ∧
    (updateLoadRange s).mCurrentLoad = (updateLoadRange s).mCursorRange.min ∧
    ((updateLoadRange s).mCurrentDirection = UserDirection.MOVING_UP ↔
      getCursorIndex s < s.mPrevIndex) ∧
    ((updateLoadRange s).mCurrentDirection = UserDirection.MOVING_DOWN ↔
      ¬ getCursorIndex s < s.mPrevIndex) ∧
    (updateLoadRange s).mPrevIndex = getCursorIndex s ∧
    (updateLoadRange s).mEntries = s.mEntries ∧
    (updateLoadRange s).trace = s.trace := by
  have hs : ¬ (getCursorIndex s = s.mPrevIndex ∧ s.mCursorRange.length > 0) :=
    fun hc => h hc.1
  unfold updateLoadRange
  rw [if_neg hs]
  refine ⟨rfl, rfl, rfl, ?_, ?_, rfl, rfl, rfl⟩
  · simp only [gt_iff_lt]
    split_ifs with hlt <;> simp [hlt]
  · simp only [gt_iff_lt]
    split_ifs with hlt <;> simp [hlt]

/-- C17 at forty entries with the cursor moved from entry 0 to entry 3. -/
theorem updateLoadRange_cursor_change_witness :
    getCursorIndex movedGrid ≠ movedGrid.mPrevIndex ∧
    ((updateLoadRange movedGrid).bLoading = true ∧
    (updateLoadRange movedGrid).bUnloaded = false ∧
    (updateLoadRange movedGrid).mCurrentLoad = (updateLoadRange movedGrid).mCursorRange.min ∧
    ((updateLoadRange movedGrid).mCurrentDirection = UserDirection.MOVING_UP ↔
      getCursorIndex movedGrid < movedGrid.mPrevIndex) ∧
    ((updateLoadRange movedGrid).mCurrentDirection = UserDirection.MOVING_DOWN ↔
      ¬ getCursorIndex movedGrid < movedGrid.mPrevIndex) ∧
    (updateLoadRange movedGrid).mPrevIndex = getCursorIndex movedGrid ∧
    (updateLoadRange movedGrid).mEntries = movedGrid.mEntries ∧
    (updateLoadRange movedGrid).trace = movedGrid.trace) :=
  ⟨by decide, updateLoadRange_cursor_change movedGrid (by decide)⟩

/-! ## Tile assignment -/

theorem assignImages_past_end (s : ImageGridComponent) (i : Nat) (h : s.mEntries.length ≤ i)
    (tiles : List ImageComponent) :
    assignImages s i tiles = tiles.map (fun t => { t with texture := none }) := by
  induction tiles with
  | nil => rfl
  | cons t rest ih =>
    have hnone : s.mEntries[i]? = none := List.getElem?_eq_none h
    simp only [assignImages, hnone, List.map_cons, ih]

theorem assignImages_length (s : ImageGridComponent) (i : Nat) (tiles : List ImageComponent) :
    (assignImages s i tiles).length = tiles.length := by
  induction tiles generalizing i with
  | nil => rfl
  | cons t rest ih =>
    unfold assignImages
    cases s.mEntries[i]? <;> simp [ih]

theorem assignImages_getElem? (s : ImageGridComponent) (start : Nat)
    (tiles : List ImageComponent) (k : Nat) (t : ImageComponent) (hk : tiles[k]? = some t) :
    (assignImages s start tiles)[k]? = some (assignedTile s (start + k) t) := by
  induction tiles generalizing start k with
  | nil => simp at hk
  | cons t0 rest ih =>
    cases k with
    | zero =>
      simp only [List.getElem?_cons_zero, Option.some.injEq] at hk
      subst hk
      unfold assignImages assignedTile
      cases he : s.mEntries[start]? with
      | none => simp [he]
      | some entry =>
        simp only [Nat.add_zero, he, List.getElem?_cons_zero]
        split_ifs <;> rfl
    | succ k =>
      simp only [List.getElem?_cons_succ] at hk
      unfold assignImages
      cases he : s.mEntries[start]? with
      | none =>
        have hlen : s.mEntries.length ≤ start := by
          by_contra hcon
          have := List.getElem?_eq_getElem (l := s.mEntries) (Nat.lt_of_not_le hcon)
          rw [he] at this
          cases this
        simp only [List.getElem?_cons_succ]
        rw [assignImages_past_end s start hlen, List.getElem?_map, hk]
        have hnone : s.mEntries[start + (k + 1)]? = none :=
          List.getElem?_eq_none (by omega)
        simp [assignedTile, hnone]
      | some entry =>
        simp only [List.getElem?_cons_succ]
        rw [ih (start + 1) k hk]
        have : start + 1 + k = start + (k + 1) := by omega
        rw [this]


/-- When tiles exist, `updateImages` is the loop run from the window start. -/
theorem updateImages_mImages (s : ImageGridComponent) (h : s.mImages.isEmpty = false) :
    (updateImages s).mImages =
      assignImages s (windowStart (getGridSize s) s.mCursor s.mEntries.length).toNat
        s.mImages := by
  unfold updateImages
  simp [h]

/-- The refresh of the empty grid with one dim tile blanks the tile and leaves
its tint. -/
theorem updateImages_emptyGridOneTile :
    (updateImages emptyGridOneTile).mImages = [{ dimTile with texture := none }] := by
  have hg : getGridSize emptyGridOneTile = ⟨1, 1⟩ := by
    simp [getGridSize, getMaxSquareSize, getPadding, emptyGridOneTile, truncToInt]
    norm_num
  have hw : windowStart ⟨1, 1⟩ 0 0 = 0 := by decide
  have he : emptyGridOneTile.mImages.isEmpty = false := rfl
  unfold updateImages
  simp only [he, Bool.false_eq_true, if_false, hg]
  have hc : emptyGridOneTile.mCursor = 0 := rfl
  have hl : emptyGridOneTile.mEntries.length = 0 := rfl
  simp only [hc, hl, Nat.cast_zero, hw]
  simp [assignImages, emptyGridOneTile]

/-- C18, as stated, fails: on the empty grid with cursor index 0, window start
0 and one dim tile, `s + k = 0` equals the cursor index, yet the loop only
blanks tile 0 and leaves its dim tint; `updateImages` does the same. -/
theorem assignImages_blank_tile_keeps_tint :
    emptyGridOneTile.mEntries.length = 0 ∧
    (((0 + 0 : Nat) : Int) = emptyGridOneTile.mCursor) ∧
    assignImages emptyGridOneTile 0 emptyGridOneTile.mImages =
      [{ dimTile with texture := none }] ∧
    (updateImages emptyGridOneTile).mImages = [{ dimTile with texture := none }] ∧
    ¬ (∀ u, (assignImages emptyGridOneTile 0 emptyGridOneTile.mImages)[0]? = some u →
        (u.colorShift = 0xFFFFFFFF ↔ ((0 + 0 : Nat) : Int) = emptyGridOneTile.mCursor)) := by
  have h : assignImages emptyGridOneTile 0 emptyGridOneTile.mImages =
      [{ dimTile with texture := none }] := by
    simp [assignImages, emptyGridOneTile]
  refine ⟨rfl, rfl, h, updateImages_emptyGridOneTile, ?_⟩
  intro hall
  have := (hall { dimTile with texture := none } (by rw [h]; rfl)).mpr rfl
  revert this
  decide

/-- C18 (amended): for every tile array, window start `s` and entry list,
after the loop of `updateImages` tile `k` keeps its position; when
`s + k < n` it shows the image of entry `s + k`, with the highlight tint
exactly when `s + k` is the cursor index and the dim tint otherwise; when
`s + k ≥ n` it shows the empty image and keeps the tint and size it had. -/
theorem assignImages_row_major (s : ImageGridComponent) (start : Nat)
    (tiles : List ImageComponent) (k : Nat) (t : ImageComponent) (hk : tiles[k]? = some t) :
    (assignImages s start tiles).length = tiles.length ∧
    ∃ u, (assignImages s start tiles)[k]? = some u ∧
      u.position = t.position ∧ u.origin = t.origin ∧
      (∀ e, s.mEntries[start + k]? = some e →
        u.texture = e.texture ∧
        (u.colorShift = 0xFFFFFFFF ↔ ((start + k : Nat) : Int) = s.mCursor) ∧
        (u.colorShift = 0xAAAAAABB ↔ ((start + k : Nat) : Int) ≠ s.mCursor)) ∧
      (s.mEntries.length ≤ start + k →
        u.texture = none ∧ u.colorShift = t.colorShift ∧ u.targetSize = t.targetSize) := by
  refine ⟨assignImages_length s start tiles, assignedTile s (start + k) t,
    assignImages_getElem? s start tiles k t hk, ?_, ?_, ?_, ?_⟩
  · unfold assignedTile; split <;> rfl
  · unfold assignedTile; split <;> rfl
  · intro e he
    unfold assignedTile
    rw [he]
    simp only
    refine ⟨trivial, ?_, ?_⟩
    · split_ifs with hc
      · simp [hc]
      · have hc2 : ¬ ((start : Int) + (k : Int) = s.mCursor) := by
          push_cast at hc; exact hc
        simp [hc2]
    · split_ifs with hc
      · simp [hc]
      · have hc2 : ¬ ((start : Int) + (k : Int) = s.mCursor) := by
          push_cast at hc; exact hc
        simp [hc2]
  · intro hlen
    have hnone : s.mEntries[start + k]? = none := List.getElem?_eq_none hlen
    unfold assignedTile
    rw [hnone]
    exact ⟨rfl, rfl, rfl⟩

/-- The amended C18 at three entries with cursor 1, window start 0 and four
dim tiles, for tile 1. -/
theorem assignImages_row_major_witness :
    [dimTile, dimTile, dimTile, dimTile][1]? = some dimTile ∧
    ((assignImages threeEntries 0 [dimTile, dimTile, dimTile, dimTile]).length =
      [dimTile, dimTile, dimTile, dimTile].length ∧
    ∃ u, (assignImages threeEntries 0 [dimTile, dimTile, dimTile, dimTile])[1]? = some u ∧
      u.position = dimTile.position ∧ u.origin = dimTile.origin ∧
      (∀ e, threeEntries.mEntries[0 + 1]? = some e →
        u.texture = e.texture ∧
        (u.colorShift = 0xFFFFFFFF ↔ ((0 + 1 : Nat) : Int) = threeEntries.mCursor) ∧
        (u.colorShift = 0xAAAAAABB ↔ ((0 + 1 : Nat) : Int) ≠ threeEntries.mCursor)) ∧
      (threeEntries.mEntries.length ≤ 0 + 1 →
        u.texture = none ∧ u.colorShift = dimTile.colorShift ∧
          u.targetSize = dimTile.targetSize)) :=
  ⟨rfl, assignImages_row_major threeEntries 0 [dimTile, dimTile, dimTile, dimTile] 1 dimTile rfl⟩

/-! ## Tile placement -/

theorem grid_length {α : Type} (R C : Nat) (f : Nat → Nat → α) :
    ((List.range R).flatMap fun (y : Nat) => (List.range C).map fun (x : Nat) => f y x).length
      = R * C := by
  induction R with
  | zero => simp
  | succ R ih =>
    rw [List.range_succ, List.flatMap_append, List.length_append, ih]
    simp [Nat.succ_mul]

theorem grid_getElem? {α : Type} (R C : Nat) (f : Nat → Nat → α) (x y : Nat)
    (hx : x < C) (hy : y < R) :
    ((List.range R).flatMap fun (y : Nat) => (List.range C).map fun (x : Nat) => f y x)[y * C + x]?
      = some (f y x) := by
  induction R with
  | zero => omega
  | succ R ih =>
    rw [List.range_succ, List.flatMap_append]
    rcases Nat.lt_or_ge y R with hlt | hge
    · have hidx : y * C + x < R * C := by
        have : (y + 1) * C ≤ R * C := Nat.mul_le_mul_right C hlt
        rw [Nat.succ_mul] at this
        omega
      rw [List.getElem?_append_left (by rw [grid_length]; exact hidx)]
      exact ih hlt
    · have hy' : y = R := by omega
      subst hy'
      rw [List.getElem?_append_right (by rw [grid_length]; omega), grid_length]
      simp [hx]

/-- C19: `buildImages` creates `columns * rows` tiles (none when a dimension
is negative); tile `(x, y)` is at index `y * columns + x` with centre
`((tileW + 24) * (x + 1/2) + offX, (tileH + 24) * (y + 1/2) + offY)`, where
`off = (viewport - grid * (tile + 24)) / 2`, origin `(1/2, 1/2)`, the tile size
and no image; the centres of tiles `x` and `columns - 1 - x` add up to the
viewport width, those of `y` and `rows - 1 - y` to the viewport height. -/
theorem buildImages_centred (s : ImageGridComponent) :
    (buildImages s).mImages.length = (getGridSize s).x.toNat * (getGridSize s).y.toNat ∧
    (0 ≤ (getGridSize s).x → 0 ≤ (getGridSize s).y →
      ((buildImages s).mImages.length : Int) = (getGridSize s).x * (getGridSize s).y) ∧
    (∀ x y : Nat, (x : Int) < (getGridSize s).x → (y : Int) < (getGridSize s).y →
      ∃ t, (buildImages s).mImages[y * (getGridSize s).x.toNat + x]? = some t ∧
        t.position =
          ⟨((getMaxSquareSize s).x + 24) * ((x : ℚ) + 1 / 2) +
              (s.mSize.x - ((getGridSize s).x : ℚ) * ((getMaxSquareSize s).x + 24)) / 2,
           ((getMaxSquareSize s).y + 24) * ((y : ℚ) + 1 / 2) +
              (s.mSize.y - ((getGridSize s).y : ℚ) * ((getMaxSquareSize s).y + 24)) / 2⟩ ∧
        t.origin = ⟨1 / 2, 1 / 2⟩ ∧ t.targetSize = getMaxSquareSize s ∧ t.texture = none) ∧
    (∀ (x x2 y y2 : Nat) (t t2 : ImageComponent),
      (x : Int) + (x2 : Int) + 1 = (getGridSize s).x →
      (y : Int) + (y2 : Int) + 1 = (getGridSize s).y →
      (buildImages s).mImages[y * (getGridSize s).x.toNat + x]? = some t →
      (buildImages s).mImages[y2 * (getGridSize s).x.toNat + x2]? = some t2 →
      t.position.x + t2.position.x = s.mSize.x ∧ t.position.y + t2.position.y = s.mSize.y) := by
  have hlen : (buildImages s).mImages.length =
      (getGridSize s).x.toNat * (getGridSize s).y.toNat := by
    simp only [buildImages]
    rw [grid_length, Nat.mul_comm]
  have hget : ∀ x y : Nat, (x : Int) < (getGridSize s).x → (y : Int) < (getGridSize s).y →
      (buildImages s).mImages[y * (getGridSize s).x.toNat + x]? = some
        { position :=
            ⟨((getMaxSquareSize s).x + 24) * ((x : ℚ) + 1 / 2) +
                (s.mSize.x - ((getGridSize s).x : ℚ) * ((getMaxSquareSize s).x + 24)) / 2,
             ((getMaxSquareSize s).y + 24) * ((y : ℚ) + 1 / 2) +
                (s.mSize.y - ((getGridSize s).y : ℚ) * ((getMaxSquareSize s).y + 24)) / 2⟩
          origin := ⟨1 / 2, 1 / 2⟩
          targetSize := getMaxSquareSize s
          texture := none } := by
    intro x y hx hy
    simp only [buildImages]
    rw [grid_getElem? _ _ _ x y (by omega) (by omega)]
    rfl
  refine ⟨hlen, ?_, ?_, ?_⟩
  · intro h0 h1
    rw [hlen]
    push_cast
    rw [Int.toNat_of_nonneg h0, Int.toNat_of_nonneg h1]
  · intro x y hx hy
    exact ⟨_, hget x y hx hy, rfl, rfl, rfl, rfl⟩
  · intro x x2 y y2 t t2 hxs hys ht ht2
    rw [hget x y (by omega) (by omega)] at ht
    rw [hget x2 y2 (by omega) (by omega)] at ht2
    simp only [Option.some.injEq] at ht ht2
    subst ht
    subst ht2
    have hC : ((getGridSize s).x : ℚ) = (x : ℚ) + (x2 : ℚ) + 1 := by
      rw [← hxs]; push_cast; ring
    have hR : ((getGridSize s).y : ℚ) = (y : ℚ) + (y2 : ℚ) + 1 := by
      rw [← hys]; push_cast; ring
    simp only
    rw [hC, hR]
    constructor <;> ring

/-- The grid of the 1000 x 600 viewport with one image-less entry. -/
theorem getGridSize_wideViewport : getGridSize wideViewport = ⟨5, 3⟩ := by
  simp [getGridSize, getMaxSquareSize, getSquareSize, getPadding, wideViewport, truncToInt]
  norm_num

/-- C19 at the 1000 x 600 viewport: 5 x 3 = 15 tiles. -/
theorem buildImages_centred_witness :
    (0 ≤ (getGridSize wideViewport).x ∧ 0 ≤ (getGridSize wideViewport).y) ∧
    ((buildImages wideViewport).mImages.length : Int) =
      (getGridSize wideViewport).x * (getGridSize wideViewport).y :=
  ⟨by rw [getGridSize_wideViewport]; decide,
   (buildImages_centred wideViewport).2.1 (by rw [getGridSize_wideViewport]; decide)
     (by rw [getGridSize_wideViewport]; decide)⟩

/-! ## Ticks and rebuild with their failures -/

/-- The grid size depends on the entries, the scale modifier and the viewport
only. -/
theorem getGridSize_congr (s t : ImageGridComponent) (he : s.mEntries = t.mEntries)
    (hm : s.mGridMod = t.mGridMod) (hs : s.mSize = t.mSize) : getGridSize s = getGridSize t := by
  unfold getGridSize getMaxSquareSize
  rw [he, hm, hs]

theorem updateImages?_of_column (s : ImageGridComponent) (h : (getGridSize s).x ≠ 0) :
    updateImages? s = some (updateImages s) := by
  simp [updateImages?, h]

/-- A tick that returns gives the state `dynamicImageLoader` computes, and a
loading tick returns only when the load cursor is inside the list. -/
theorem dynamicImageLoader?_some (rm : ResourceManager) (s t : ImageGridComponent)
    (h : dynamicImageLoader? rm s = some t) :
    t = dynamicImageLoader rm s ∧
    (s.bLoading = true → 0 ≤ s.mCurrentLoad ∧ s.mCurrentLoad < s.mEntries.length) := by
  unfold dynamicImageLoader? at h
  by_cases hb : s.bLoading = true
  · rw [if_pos hb] at h
    by_cases hin : 0 ≤ s.mCurrentLoad ∧ s.mCurrentLoad < s.mEntries.length
    · have hl : loadTexture? rm s.mEntries s.mCurrentLoad =
          some (loadTexture rm s.mEntries s.mCurrentLoad) := by
        simp [loadTexture?, hin]
      rw [hl] at h
      simp only at h
      by_cases hc : (getGridSize
          { s with mEntries := loadTexture rm s.mEntries s.mCurrentLoad,
                   trace := s.trace ++ [Call.loadTexture s.mCurrentLoad] }).x = 0
      · rw [updateImages?, if_pos hc] at h
        simp at h
      · rw [updateImages?, if_neg hc] at h
        simp only [Option.some.injEq] at h
        refine ⟨?_, fun _ => hin⟩
        rw [← h]
        unfold dynamicImageLoader
        rw [if_pos hb]
    · have hl : loadTexture? rm s.mEntries s.mCurrentLoad = none := by
        simp only [loadTexture?, hin, if_false]
      rw [hl] at h
      simp at h
  · rw [if_neg hb] at h
    simp only [Option.some.injEq] at h
    exact ⟨h.symm, fun hc => absurd hc hb⟩

/-- A tick returns whenever, in the loading state, the load cursor is inside
the list and the grid has a column once that entry is loaded. -/
theorem dynamicImageLoader?_of_defined (rm : ResourceManager) (s : ImageGridComponent)
    (h : s.bLoading = true →
      (0 ≤ s.mCurrentLoad ∧ s.mCurrentLoad < s.mEntries.length) ∧
      (getGridSize { s with mEntries := loadTexture rm s.mEntries s.mCurrentLoad }).x ≠ 0) :
    dynamicImageLoader? rm s = some (dynamicImageLoader rm s) := by
  unfold dynamicImageLoader?
  by_cases hb : s.bLoading = true
  · obtain ⟨hin, hcol⟩ := h hb
    have hl : loadTexture? rm s.mEntries s.mCurrentLoad =
        some (loadTexture rm s.mEntries s.mCurrentLoad) := by
      simp [loadTexture?, hin]
    have hg : (getGridSize
        { s with mEntries := loadTexture rm s.mEntries s.mCurrentLoad,
                 trace := s.trace ++ [Call.loadTexture s.mCurrentLoad] }).x ≠ 0 := by
      exact hcol
    rw [if_pos hb, hl]
    simp only
    rw [updateImages?_of_column _ hg]
    simp only [Option.some.injEq]
    unfold dynamicImageLoader
    rw [if_pos hb]
  · rw [if_neg hb]

theorem ticks?_some (rm : ResourceManager) (k : Nat) (s t : ImageGridComponent)
    (h : ticks? rm k s = some t) : t = (dynamicImageLoader rm)^[k] s := by
  induction k generalizing t with
  | zero =>
    simp only [ticks?, Option.some.injEq] at h
    simp [h]
  | succ k ih =>
    simp only [ticks?] at h
    cases hk : ticks? rm k s with
    | none => rw [hk] at h; simp at h
    | some u =>
      rw [hk] at h
      simp only [Option.some_bind] at h
      rw [Function.iterate_succ_apply', ← ih u hk]
      exact (dynamicImageLoader?_some rm u t h).1

theorem ticks?_succ (rm : ResourceManager) (k : Nat) (s u : ImageGridComponent)
    (h : ticks? rm k s = some u) : ticks? rm (k + 1) s = dynamicImageLoader? rm u := by
  simp [ticks?, h]

/-- A run that returns after `k + 1` ticks returned after `k`. -/
theorem ticks?_prev (rm : ResourceManager) (k : Nat) (s t : ImageGridComponent)
    (h : ticks? rm (k + 1) s = some t) : ∃ u, ticks? rm k s = some u := by
  simp only [ticks?] at h
  cases hk : ticks? rm k s with
  | none => rw [hk] at h; simp at h
  | some u => exact ⟨u, rfl⟩


theorem loadRun_length (rm : ResourceManager) (es : List Entry) (start : Int) (k : Nat) :
    (loadRun rm es start k).length = es.length := by
  have h := foldl_modifyAt_length
    (fun e => { e with texture := some (loadedTexture rm e) })
    ((List.range k).map (fun i : Nat => start + (i : Int))) es
  rw [List.foldl_map] at h
  simpa [loadRun, loadTexture] using h

theorem dynamicImageLoader_bLoading_false (rm : ResourceManager) (s : ImageGridComponent)
    (h : s.bLoading = false) : (dynamicImageLoader rm s).bLoading = false := by
  cases hu : s.bUnloaded with
  | true => rw [dynamicImageLoader_settled rm s h hu]; exact h
  | false => rw [dynamicImageLoader_unloading rm s h hu]; exact h

/-- The three phases of a run of `dynamicImageLoader` from a loading state: `k`
loading ticks, the tick that ends the loading pass, and from the next tick on
the settled state reached by the unloading tick. -/
theorem run_phases (rm : ResourceManager) (s : ImageGridComponent)
    (hb : s.bLoading = true) (hu : s.bUnloaded = false) (k : Nat) :
    (k ≤ (s.mCursorRange.max - s.mCurrentLoad).toNat ∧
      ((dynamicImageLoader rm)^[k] s).bLoading = true ∧
      ((dynamicImageLoader rm)^[k] s).trace = s.trace ++ loadCalls s.mCurrentLoad k) ∨
    (k = (s.mCursorRange.max - s.mCurrentLoad).toNat + 1 ∧
      ((dynamicImageLoader rm)^[k] s).bLoading = false ∧
      ((dynamicImageLoader rm)^[k] s).bUnloaded = false ∧
      ((dynamicImageLoader rm)^[k] s).trace = s.trace ++ loadCalls s.mCurrentLoad k) ∨
    ((s.mCursorRange.max - s.mCurrentLoad).toNat + 2 ≤ k ∧
      (dynamicImageLoader rm)^[k] s =
        (dynamicImageLoader rm)^[(s.mCursorRange.max - s.mCurrentLoad).toNat + 2] s ∧
      ((dynamicImageLoader rm)^[k] s).bLoading = false ∧
      ((dynamicImageLoader rm)^[k] s).bUnloaded = true ∧
      ∃ cleared : List Int, ((dynamicImageLoader rm)^[k] s).trace =
        s.trace ++ loadCalls s.mCurrentLoad ((s.mCursorRange.max - s.mCurrentLoad).toNat + 1)
          ++ cleared.map Call.clearImage) := by
  obtain ⟨imgs, hfin⟩ := loading_finish rm s hb
  have hstep : (dynamicImageLoader rm)^[(s.mCursorRange.max - s.mCurrentLoad).toNat + 2] s =
      dynamicImageLoader rm
        ((dynamicImageLoader rm)^[(s.mCursorRange.max - s.mCurrentLoad).toNat + 1] s) :=
    Function.iterate_succ_apply' _ _ _
  have hunl := dynamicImageLoader_unloading rm
    ((dynamicImageLoader rm)^[(s.mCursorRange.max - s.mCurrentLoad).toNat + 1] s)
    (by rw [hfin]) (by rw [hfin]; exact hu)
  rcases Nat.lt_or_ge k ((s.mCursorRange.max - s.mCurrentLoad).toNat + 1) with h1 | h1
  · left
    obtain ⟨imgs2, hi⟩ := loading_iterate rm s hb k (by omega)
    exact ⟨by omega, by rw [hi]; exact hb, by rw [hi]⟩
  · rcases Nat.eq_or_lt_of_le h1 with h2 | h2
    · right; left
      subst h2
      exact ⟨rfl, by rw [hfin], by rw [hfin]; exact hu, by rw [hfin]⟩
    · right; right
      have hk : (dynamicImageLoader rm)^[k] s =
          (dynamicImageLoader rm)^[(s.mCursorRange.max - s.mCurrentLoad).toNat + 2] s := by
        obtain ⟨m, rfl⟩ : ∃ m, k = m + ((s.mCursorRange.max - s.mCurrentLoad).toNat + 2) :=
          ⟨k - ((s.mCursorRange.max - s.mCurrentLoad).toNat + 2), by omega⟩
        rw [Function.iterate_add_apply]
        apply Function.iterate_fixed
        rw [hstep, hunl]
        apply dynamicImageLoader_settled
        · simp only; rw [hfin]
        · rfl
      refine ⟨by omega, hk, ?_⟩
      rw [hk, hstep, hunl]
      refine ⟨by simp only; rw [hfin], rfl,
        ⟨evictedIndices
          ((dynamicImageLoader rm)^[(s.mCursorRange.max - s.mCurrentLoad).toNat + 1] s), ?_⟩⟩
      simp only
      rw [hfin]

/-- The run returns at every tick when the indices loaded lie inside the list
and the grid has a column after each load. -/
theorem ticks?_of_defined (rm : ResourceManager) (s : ImageGridComponent)
    (hb : s.bLoading = true) (hu : s.bUnloaded = false)
    (h0 : 0 ≤ s.mCurrentLoad)
    (hin : s.mCurrentLoad + ((s.mCursorRange.max - s.mCurrentLoad).toNat : Int)
      < s.mEntries.length)
    (hcols : ∀ k : Nat, k ≤ (s.mCursorRange.max - s.mCurrentLoad).toNat →
      (getGridSize { s with mEntries := loadRun rm s.mEntries s.mCurrentLoad (k + 1) }).x ≠ 0)
    (k : Nat) : ticks? rm k s = some ((dynamicImageLoader rm)^[k] s) := by
  induction k with
  | zero => rfl
  | succ k ih =>
    rw [ticks?_succ rm k s _ ih, Function.iterate_succ_apply']
    apply dynamicImageLoader?_of_defined
    intro hl
    rcases run_phases rm s hb hu k with ⟨hk, _, _⟩ | ⟨_, hf, _, _⟩ | ⟨_, _, hf, _, _⟩
    · obtain ⟨imgs, hi⟩ := loading_iterate rm s hb k hk
      rw [hi]
      simp only
      refine ⟨⟨by omega, ?_⟩, ?_⟩
      · rw [loadRun_length]; omega
      · rw [← loadRun_succ]
        exact hcols k hk
    · rw [hf] at hl; cases hl
    · rw [hf] at hl; cases hl


theorem updateLoadRange_min_nonneg (s : ImageGridComponent) (h : rangeStale s) :
    0 ≤ (updateLoadRange s).mCursorRange.min := by
  unfold rangeStale at h
  unfold updateLoadRange
  rw [if_neg h]
  simp only
  split_ifs <;> omega

/-- The loading pass of `ticks?` from a loading state whose load
cursor and range maximum are inside the list, on a grid that keeps a column
after every load. -/
theorem loading_pass_checked (rm : ResourceManager) (s : ImageGridComponent)
    (hb : s.bLoading = true) (hu : s.bUnloaded = false)
    (h0 : 0 ≤ s.mCurrentLoad) (hmin : s.mCurrentLoad < s.mEntries.length)
    (hmax : s.mCursorRange.max < s.mEntries.length)
    (hcols : ∀ k : Nat, k ≤ (s.mCursorRange.max - s.mCurrentLoad).toNat →
      (getGridSize { s with mEntries := loadRun rm s.mEntries s.mCurrentLoad (k + 1) }).x ≠ 0) :
    (∀ k : Nat, ticks? rm k s = some ((dynamicImageLoader rm)^[k] s)) ∧
    (∀ k : Nat, k ≤ (s.mCursorRange.max - s.mCurrentLoad).toNat →
      ((dynamicImageLoader rm)^[k] s).bLoading = true) ∧
    ((dynamicImageLoader rm)^[(s.mCursorRange.max - s.mCurrentLoad).toNat + 1] s).bLoading
      = false ∧
    ((dynamicImageLoader rm)^[(s.mCursorRange.max - s.mCurrentLoad).toNat + 1] s).trace =
      s.trace ++ loadCalls s.mCurrentLoad ((s.mCursorRange.max - s.mCurrentLoad).toNat + 1) ∧
    ((dynamicImageLoader rm)^[(s.mCursorRange.max - s.mCurrentLoad).toNat + 1] s).mEntries =
      loadRun rm s.mEntries s.mCurrentLoad ((s.mCursorRange.max - s.mCurrentLoad).toNat + 1) := by
  have hin : s.mCurrentLoad + ((s.mCursorRange.max - s.mCurrentLoad).toNat : Int)
      < s.mEntries.length := by omega
  obtain ⟨imgs, hfin⟩ := loading_finish rm s hb
  refine ⟨ticks?_of_defined rm s hb hu h0 hin hcols, ?_, by rw [hfin], by rw [hfin],
    by rw [hfin]⟩
  intro k hk
  obtain ⟨imgs2, hi⟩ := loading_iterate rm s hb k hk
  rw [hi]
  exact hb

theorem mem_loadRun (rm : ResourceManager) (es : List Entry) (start : Int) (k : Nat)
    (e2 : Entry) (h : e2 ∈ loadRun rm es start k) :
    ∃ e ∈ es, e2 = e ∨ e2 = { e with texture := some (loadedTexture rm e) } := by
  obtain ⟨j, hj⟩ := List.mem_iff_getElem?.mp h
  rw [loadRun_getElem?] at hj
  split_ifs at hj
  · cases he : es[j]? with
    | none => rw [he] at hj; simp at hj
    | some e =>
      rw [he] at hj
      simp only [Option.map_some', Option.some.injEq] at hj
      exact ⟨e, List.mem_iff_getElem?.mpr ⟨j, he⟩, Or.inr hj.symm⟩
  · exact ⟨e2, List.mem_iff_getElem?.mpr ⟨j, hj⟩, Or.inl rfl⟩

/-- A grid has at least one column when every tile is at most `B` wide and a
tile of width `B` with its padding fits the viewport. -/
theorem cols_of_fit (s : ImageGridComponent) (B : ℚ) (hB : 32 ≤ B)
    (hfit : B + 24 ≤ s.mSize.x)
    (h : ∀ e ∈ s.mEntries, (getSquareSize s.mGridMod e.texture).x ≤ B) :
    (getGridSize s).x ≠ 0 := by
  have heq : getMaxSquareSize s =
      ⟨(s.mEntries.map (fun e => (getSquareSize s.mGridMod e.texture).x)).foldl max 32,
       (s.mEntries.map (fun e => (getSquareSize s.mGridMod e.texture).y)).foldl max 32⟩ :=
    getMaxSquareSize_fold_eq s.mGridMod s.mEntries ⟨32, 32⟩
  obtain ⟨x1, _, x3⟩ :=
    foldl_max_ge (s.mEntries.map (fun e => (getSquareSize s.mGridMod e.texture).x)) 32
  have hle : (getMaxSquareSize s).x ≤ B := by
    rw [heq]
    rcases x3 with h3 | h3
    · simp only; rw [h3]; exact hB
    · obtain ⟨e, he, hv⟩ := List.mem_map.mp h3
      simp only
      rw [← hv]
      exact h e he
  have hge : 32 ≤ (getMaxSquareSize s).x := by rw [heq]; exact x1
  have hpos : 0 < (getMaxSquareSize s).x + 24 := by linarith
  have hq : 1 ≤ s.mSize.x / ((getMaxSquareSize s).x + 24) := by
    rw [le_div_iff₀ hpos]; linarith
  have hx : (getGridSize s).x = truncToInt (s.mSize.x / ((getMaxSquareSize s).x + 24)) := rfl
  rw [hx, truncToInt_of_nonneg (by linarith)]
  have : (1 : Int) ≤ ⌊s.mSize.x / ((getMaxSquareSize s).x + 24)⌋ := by
    rw [Int.le_floor]; exact_mod_cast hq
  omega

theorem getSquareSize_square (t : TextureResource) (h : t.size = ⟨256, 256⟩) :
    (getSquareSize 1 (some t)).x = 1716 / 10 := by
  simp only [getSquareSize, h]
  norm_num

theorem updateLoadRange_browsingGrid :
    updateLoadRange browsingGrid =
      { browsingGrid with
        mCursorRange := { min := 0, max := 27, length := 27 }
        mCurrentLoad := 0
        bLoading := true
        mCurrentDirection := UserDirection.MOVING_DOWN
        bUnloaded := false
        mPrevIndex := 3 } := by
  simp [updateLoadRange, browsingGrid, getCursorIndex, truncToInt]

/-- The browsing grid keeps at least one column whichever entries are loaded,
when every image decodes to 256 x 256 pixels. -/
theorem browsingGrid_columns (rm : ResourceManager)
    (hsz : ∀ p, rm.textureSize p = ⟨256, 256⟩) (k : Nat) :
    (getGridSize { updateLoadRange browsingGrid with
      mEntries := loadRun rm (updateLoadRange browsingGrid).mEntries
        (updateLoadRange browsingGrid).mCursorRange.min k }).x ≠ 0 := by
  rw [updateLoadRange_browsingGrid]
  apply cols_of_fit _ (1716 / 10) (by norm_num) (by simp only [browsingGrid]; norm_num)
  intro e2 he2
  obtain ⟨e, he, h⟩ := mem_loadRun rm _ _ _ e2 he2
  have hfe : e = frameEntry := List.eq_of_mem_replicate he
  have hm : ({ browsingGrid with
        mCursorRange := { min := 0, max := 27, length := 27 }
        mCurrentLoad := 0
        bLoading := true
        mCurrentDirection := UserDirection.MOVING_DOWN
        bUnloaded := false
        mPrevIndex := 3
        mEntries := loadRun rm browsingGrid.mEntries 0 k } : ImageGridComponent).mGridMod = 1 := rfl
  simp only at hm ⊢
  rcases h with h | h
  · rw [h, hfe]
    exact le_of_eq (getSquareSize_square _ rfl)
  · rw [h]
    refine le_of_eq (getSquareSize_square _ ?_)
    unfold loadedTexture
    split_ifs <;> exact hsz _

theorem ticks?_initial (rm : ResourceManager) (s : ImageGridComponent) (k : Nat)
    (t : ImageGridComponent) (h : ticks? rm k s = some t) (m : Nat) (hm : m ≤ k) :
    ticks? rm m s = some ((dynamicImageLoader rm)^[m] s) := by
  induction k generalizing t with
  | zero =>
    have : m = 0 := by omega
    subst this
    rfl
  | succ k ih =>
    rcases Nat.eq_or_lt_of_le hm with h1 | h1
    · subst h1
      rw [h, ticks?_some rm _ s t h]
    · obtain ⟨u, hu⟩ := ticks?_prev rm k s t h
      exact ih u hu (by omega)

/-- A loading tick appends one load call and takes no image away. -/
theorem loading_tick_frame (rm : ResourceManager) (t : ImageGridComponent)
    (ht : t.bLoading = true) :
    (dynamicImageLoader rm t).trace = t.trace ++ [Call.loadTexture t.mCurrentLoad] ∧
    ∀ (j : Nat) (e : Entry), t.mEntries[j]? = some e →
      ∃ e2, (dynamicImageLoader rm t).mEntries[j]? = some e2 ∧
        (e.texture ≠ none → e2.texture ≠ none) := by
  rw [dynamicImageLoader_loading rm t ht]
  constructor
  · split_ifs <;> rfl
  · intro j e he
    have hget : (loadTexture rm t.mEntries t.mCurrentLoad)[j]? =
        if (j : Int) = t.mCurrentLoad then
          some { e with texture := some (loadedTexture rm e) }
        else some e := by
      rw [loadTexture, modifyAt_getElem?, he]; rfl
    by_cases hj : (j : Int) = t.mCurrentLoad
    · refine ⟨{ e with texture := some (loadedTexture rm e) }, ?_, by simp⟩
      split_ifs <;> simp [hget, hj]
    · refine ⟨e, ?_, id⟩
      split_ifs <;> simp [hget, hj]

/-- The loading pass of `ticks?`, with the handle every entry of the range
holds afterwards. -/
theorem loading_pass_explicit (rm : ResourceManager) (s0 : ImageGridComponent) (n : Nat)
    (hb : s0.bLoading = true) (hu : s0.bUnloaded = false)
    (hcur : s0.mCurrentLoad = s0.mCursorRange.min)
    (h0 : 0 ≤ s0.mCursorRange.min)
    (hle : s0.mCursorRange.min ≤ s0.mCursorRange.max)
    (hin : s0.mCursorRange.max < s0.mEntries.length)
    (hn : (n : Int) = s0.mCursorRange.max - s0.mCursorRange.min + 1)
    (hcols : ∀ k : Nat, k < n →
      (getGridSize { s0 with
        mEntries := loadRun rm s0.mEntries s0.mCursorRange.min (k + 1) }).x ≠ 0) :
    ∃ t, ticks? rm n s0 = some t ∧ t.bLoading = false ∧
      (∀ k : Nat, k < n → ∃ u, ticks? rm k s0 = some u ∧ u.bLoading = true) ∧
      t.trace = s0.trace ++ loadCalls s0.mCursorRange.min n ∧
      (∀ i : Int, s0.mCursorRange.min ≤ i → i ≤ s0.mCursorRange.max →
        Call.loadTexture i ∈ t.trace) ∧
      ∀ (j : Nat) (e : Entry),
        s0.mCursorRange.min ≤ (j : Int) → (j : Int) ≤ s0.mCursorRange.max →
        s0.mEntries[j]? = some e →
        t.mEntries[j]? = some { e with texture := some (loadedTexture rm e) } := by
  have hN : (s0.mCursorRange.max - s0.mCurrentLoad).toNat + 1 = n := by omega
  obtain ⟨hdef, hload, hfl, htr, hent⟩ := loading_pass_checked rm s0 hb hu
    (by omega) (by omega) hin
    (by intro k hk; rw [hcur]; exact hcols k (by omega))
  rw [hN] at hfl htr hent
  rw [hcur] at htr hent
  refine ⟨(dynamicImageLoader rm)^[n] s0, hdef n, hfl, ?_, htr, ?_, ?_⟩
  · intro k hk
    exact ⟨_, hdef k, hload k (by omega)⟩
  · intro i h1 h2
    rw [htr]
    simp only [List.mem_append]
    right
    rw [mem_loadCalls]; omega
  · intro j e h1 h2 he
    rw [hent, loadRun_getElem?, if_pos ⟨h1, by omega⟩, he]
    rfl

/-- C4 fails as stated: on the browsing grid (forty entries, cursor moved to
entry 3, hot range 0..27) with a resource manager in which no image path
exists, the 28 ticks of the loading pass all return, the loading flag is
cleared and `loadTexture` has been invoked for every index of the range, yet
every entry of the range holds the blank placeholder, not an image of its
own. -/
theorem loading_pass_leaves_placeholder :
    rangeStale browsingGrid ∧
    (updateLoadRange browsingGrid).mCursorRange.min = 0 ∧
    (updateLoadRange browsingGrid).mCursorRange.max = 27 ∧
    ∃ t, ticks? noCovers 28 (updateLoadRange browsingGrid) = some t ∧ t.bLoading = false ∧
      (∀ i : Int, 0 ≤ i → i ≤ 27 → Call.loadTexture i ∈ t.trace) ∧
      ∀ j : Nat, j ≤ 27 → ∃ e tex, t.mEntries[j]? = some e ∧ e.texture = some tex ∧
        tex.path = ":/blank_game.png" ∧ tex.isPlaceholder := by
  have hst : rangeStale browsingGrid := by decide
  have hmin : (updateLoadRange browsingGrid).mCursorRange.min = 0 := by
    rw [updateLoadRange_browsingGrid]
  have hmax : (updateLoadRange browsingGrid).mCursorRange.max = 27 := by
    rw [updateLoadRange_browsingGrid]
  have hent : (updateLoadRange browsingGrid).mEntries = List.replicate 40 frameEntry := by
    rw [updateLoadRange_browsingGrid]; rfl
  obtain ⟨hb, hu, hcur, _, _⟩ := updateLoadRange_stale browsingGrid hst
  obtain ⟨t, ht, hfl, _, _, hcalls, hload⟩ :=
    loading_pass_explicit noCovers (updateLoadRange browsingGrid) 28 hb hu hcur
      (by rw [hmin]) (by rw [hmin, hmax]; decide) (by rw [hmax, hent]; decide)
      (by rw [hmin, hmax]; rfl)
      (fun k _ => browsingGrid_columns noCovers (fun _ => rfl) (k + 1))
  refine ⟨hst, hmin, hmax, t, ht, hfl, ?_, ?_⟩
  · intro i h1 h2
    exact hcalls i (by rw [hmin]; exact h1) (by rw [hmax]; exact h2)
  · intro j hj
    have he : (updateLoadRange browsingGrid).mEntries[j]? = some frameEntry := by
      rw [hent, List.getElem?_replicate]
      simp; omega
    refine ⟨_, _, hload j frameEntry (by rw [hmin]; omega) (by rw [hmax]; omega) he, rfl,
      rfl, Or.inr rfl⟩

/-- C4, amended: from the state `updateLoadRange` leaves after a cursor move,
with `min ≤ max`, `max` inside the list and a grid that has at least one
column after each load, and with no further cursor change, the first
`max - min + 1` calls of `dynamicImageLoader` all return, each starting with
the loading flag set; after exactly that many calls the flag is cleared,
`loadTexture` has been invoked once for each index `min .. max` in order, and
every entry of the range holds the image of its path when the path exists and
the blank placeholder when it does not. -/
theorem loading_pass_loads_hot_range (rm : ResourceManager) (s s0 : ImageGridComponent)
    (n : Nat) (hstale : rangeStale s) (hs0 : s0 = updateLoadRange s)
    (hle : s0.mCursorRange.min ≤ s0.mCursorRange.max)
    (hin : s0.mCursorRange.max < s0.mEntries.length)
    (hn : (n : Int) = s0.mCursorRange.max - s0.mCursorRange.min + 1)
    (hcols : ∀ k : Nat, k < n →
      (getGridSize { s0 with
        mEntries := loadRun rm s0.mEntries s0.mCursorRange.min (k + 1) }).x ≠ 0) :
    ∃ t, ticks? rm n s0 = some t ∧ t.bLoading = false ∧
      (∀ k : Nat, k < n → ∃ u, ticks? rm k s0 = some u ∧ u.bLoading = true) ∧
      t.trace = s0.trace ++ loadCalls s0.mCursorRange.min n ∧
      (∀ i : Int, s0.mCursorRange.min ≤ i → i ≤ s0.mCursorRange.max →
        Call.loadTexture i ∈ t.trace) ∧
      ∀ (j : Nat) (e : Entry),
        s0.mCursorRange.min ≤ (j : Int) → (j : Int) ≤ s0.mCursorRange.max →
        s0.mEntries[j]? = some e →
        (rm.fileExists e.strdata = true →
          t.mEntries[j]? =
            some { e with texture := some (TextureResource.get rm e.strdata) }) ∧
        (rm.fileExists e.strdata = false →
          t.mEntries[j]? =
            some { e with texture := some (TextureResource.get rm ":/blank_game.png") }) := by
  obtain ⟨hb, hu, hcur, _, _⟩ := updateLoadRange_stale s hstale
  have h0 := updateLoadRange_min_nonneg s hstale
  rw [← hs0] at hb hu hcur h0
  obtain ⟨t, ht, hfl, hticks, htr, hcalls, hload⟩ :=
    loading_pass_explicit rm s0 n hb hu hcur h0 hle hin hn hcols
  refine ⟨t, ht, hfl, hticks, htr, hcalls, ?_⟩
  intro j e h1 h2 he
  have := hload j e h1 h2 he
  constructor
  · intro hex
    rw [this]
    simp [loadedTexture, hex]
  · intro hex
    rw [this]
    simp [loadedTexture, hex]

/-- The amended C4 on the browsing grid with a resource manager in which every
path exists: hot range 0..27, 28 ticks. -/
theorem loading_pass_loads_hot_range_witness :
    rangeStale browsingGrid ∧
    (updateLoadRange browsingGrid).mCursorRange.min ≤
      (updateLoadRange browsingGrid).mCursorRange.max ∧
    (updateLoadRange browsingGrid).mCursorRange.max <
      (updateLoadRange browsingGrid).mEntries.length ∧
    ((28 : Nat) : Int) = (updateLoadRange browsingGrid).mCursorRange.max -
      (updateLoadRange browsingGrid).mCursorRange.min + 1 ∧
    ∃ t, ticks? squareCovers 28 (updateLoadRange browsingGrid) = some t ∧ t.bLoading = false ∧
      (∀ k : Nat, k < 28 →
        ∃ u, ticks? squareCovers k (updateLoadRange browsingGrid) = some u ∧
          u.bLoading = true) ∧
      t.trace = (updateLoadRange browsingGrid).trace ++
        loadCalls (updateLoadRange browsingGrid).mCursorRange.min 28 ∧
      (∀ i : Int, (updateLoadRange browsingGrid).mCursorRange.min ≤ i →
        i ≤ (updateLoadRange browsingGrid).mCursorRange.max →
        Call.loadTexture i ∈ t.trace) ∧
      ∀ (j : Nat) (e : Entry),
        (updateLoadRange browsingGrid).mCursorRange.min ≤ (j : Int) →
        (j : Int) ≤ (updateLoadRange browsingGrid).mCursorRange.max →
        (updateLoadRange browsingGrid).mEntries[j]? = some e →
        (squareCovers.fileExists e.strdata = true →
          t.mEntries[j]? =
            some { e with texture := some (TextureResource.get squareCovers e.strdata) }) ∧
        (squareCovers.fileExists e.strdata = false →
          t.mEntries[j]? =
            some { e with
              texture := some (TextureResource.get squareCovers ":/blank_game.png") }) :=
  have h1 : (updateLoadRange browsingGrid).mCursorRange.min ≤
      (updateLoadRange browsingGrid).mCursorRange.max := by
    rw [updateLoadRange_browsingGrid]; decide
  have h2 : (updateLoadRange browsingGrid).mCursorRange.max <
      (updateLoadRange browsingGrid).mEntries.length := by
    rw [updateLoadRange_browsingGrid]; decide
  have h3 : ((28 : Nat) : Int) = (updateLoadRange browsingGrid).mCursorRange.max -
      (updateLoadRange browsingGrid).mCursorRange.min + 1 := by
    rw [updateLoadRange_browsingGrid]; rfl
  ⟨by decide, h1, h2, h3,
    loading_pass_loads_hot_range squareCovers browsingGrid (updateLoadRange browsingGrid) 28
      (by decide) rfl h1 h2 h3
      (fun k _ => browsingGrid_columns squareCovers (fun _ => rfl) (k + 1))⟩

/-- C10: load-before-evict ordering over the ticks that return, after a
recomputing `updateLoadRange` and with no further cursor change. A tick that
returns from a loading state loads an entry of the list, appends exactly that
one `loadTexture` call and takes no image away; a tick from a state that has
finished loading but not unloaded appends only `clearImageAt` calls and sets
the unloaded flag; a tick from a settled state changes nothing. With
`n = (max - min).toNat + 1`, the `n` load calls from `min` on cover the whole
hot range, and whenever the first `k` ticks return: for `k < n` the loading
flag is set and the trace is the old one followed by the first `k` loads, no
clear among them; for `k = n` the loading flag is cleared, nothing has been
unloaded and the trace is the old one followed by all `n` loads; for `k > n`
the state is the one reached after tick `n + 1`, whose trace is the old one,
the `n` loads, then the clears of that one tick. When `min` and `max` are
inside the list and the grid has a column after each load, every tick
returns. -/
theorem load_before_evict (rm : ResourceManager) (s s0 : ImageGridComponent)
    (hstale : rangeStale s) (hs0 : s0 = updateLoadRange s) :
    (∀ u v : ImageGridComponent, dynamicImageLoader? rm u = some v →
      (u.bLoading = true →
        (0 ≤ u.mCurrentLoad ∧ u.mCurrentLoad < u.mEntries.length) ∧
        v.trace = u.trace ++ [Call.loadTexture u.mCurrentLoad] ∧
        ∀ (j : Nat) (e : Entry), u.mEntries[j]? = some e →
          ∃ e2, v.mEntries[j]? = some e2 ∧ (e.texture ≠ none → e2.texture ≠ none)) ∧
      (u.bLoading = false → u.bUnloaded = false →
        v.bLoading = false ∧ v.bUnloaded = true ∧
        ∃ cleared : List Int, v.trace = u.trace ++ cleared.map Call.clearImage) ∧
      (u.bLoading = false → u.bUnloaded = true → v = u)) ∧
    (∀ i : Int, s0.mCursorRange.min ≤ i → i ≤ s0.mCursorRange.max →
      Call.loadTexture i ∈ loadCalls s0.mCursorRange.min
        ((s0.mCursorRange.max - s0.mCursorRange.min).toNat + 1)) ∧
    (∀ (k : Nat) (t : ImageGridComponent), ticks? rm k s0 = some t →
      (k ≤ (s0.mCursorRange.max - s0.mCursorRange.min).toNat →
        t.bLoading = true ∧ t.trace = s0.trace ++ loadCalls s0.mCursorRange.min k ∧
        ∀ i : Int, Call.clearImage i ∉ loadCalls s0.mCursorRange.min k) ∧
      (k = (s0.mCursorRange.max - s0.mCursorRange.min).toNat + 1 →
        t.bLoading = false ∧ t.bUnloaded = false ∧
        t.trace = s0.trace ++ loadCalls s0.mCursorRange.min k) ∧
      ((s0.mCursorRange.max - s0.mCursorRange.min).toNat + 2 ≤ k →
        t.bLoading = false ∧ t.bUnloaded = true ∧
        ticks? rm ((s0.mCursorRange.max - s0.mCursorRange.min).toNat + 2) s0 = some t ∧
        ∃ cleared : List Int, t.trace =
          s0.trace ++ loadCalls s0.mCursorRange.min
            ((s0.mCursorRange.max - s0.mCursorRange.min).toNat + 1) ++
            cleared.map Call.clearImage)) ∧
    (s0.mCursorRange.min < s0.mEntries.length → s0.mCursorRange.max < s0.mEntries.length →
      (∀ k : Nat, k ≤ (s0.mCursorRange.max - s0.mCursorRange.min).toNat →
        (getGridSize { s0 with
          mEntries := loadRun rm s0.mEntries s0.mCursorRange.min (k + 1) }).x ≠ 0) →
      ∀ k : Nat, ∃ t, ticks? rm k s0 = some t) := by
  obtain ⟨hb, hu, hcur, _, _⟩ := updateLoadRange_stale s hstale
  have h0 := updateLoadRange_min_nonneg s hstale
  rw [← hs0] at hb hu hcur h0
  refine ⟨?_, ?_, ?_, ?_⟩
  · intro u v huv
    obtain ⟨hv, hdom⟩ := dynamicImageLoader?_some rm u v huv
    refine ⟨?_, ?_, ?_⟩
    · intro hl
      obtain ⟨h1, h2⟩ := loading_tick_frame rm u hl
      rw [hv]
      exact ⟨hdom hl, h1, h2⟩
    · intro hl hun
      rw [hv, dynamicImageLoader_unloading rm u hl hun]
      exact ⟨hl, rfl, ⟨_, rfl⟩⟩
    · intro hl hun
      rw [hv, dynamicImageLoader_settled rm u hl hun]
  · intro i h1 h2
    rw [mem_loadCalls]; omega
  · intro k t hk
    have ht := ticks?_some rm k s0 t hk
    have hph := run_phases rm s0 hb hu k
    rw [hcur, ← ht] at hph
    refine ⟨?_, ?_, ?_⟩
    · intro hle
      rcases hph with ⟨_, h1, h2⟩ | ⟨h, _⟩ | ⟨h, _⟩
      · exact ⟨h1, h2, fun i => clearImage_not_mem_loadCalls _ _ i⟩
      · omega
      · omega
    · intro heq
      rcases hph with ⟨h, _⟩ | ⟨_, h1, h2, h3⟩ | ⟨h, _⟩
      · omega
      · exact ⟨h1, h2, h3⟩
      · omega
    · intro hge
      rcases hph with ⟨h, _⟩ | ⟨h, _⟩ | ⟨_, h1, h2, h3, h4⟩
      · omega
      · omega
      · refine ⟨h2, h3, ?_, h4⟩
        rw [ticks?_initial rm s0 k t hk _ hge, ← h1]
  · intro hmin hmax hcols k
    exact ⟨_, (loading_pass_checked rm s0 hb hu (by omega) (by omega) hmax
      (by intro j hj; rw [hcur] at hj ⊢; exact hcols j hj)).1 k⟩

/-- C10 on the browsing grid with a resource manager in which every path
exists (hot range 0..27): the hypotheses hold, and so do those of the last
part, so that every tick returns. -/
theorem load_before_evict_witness :
    rangeStale browsingGrid ∧
    (∀ (k : Nat) (t : ImageGridComponent),
      ticks? squareCovers k (updateLoadRange browsingGrid) = some t →
      (k ≤ ((updateLoadRange browsingGrid).mCursorRange.max -
          (updateLoadRange browsingGrid).mCursorRange.min).toNat →
        t.bLoading = true ∧
        t.trace = (updateLoadRange browsingGrid).trace ++
          loadCalls (updateLoadRange browsingGrid).mCursorRange.min k ∧
        ∀ i : Int, Call.clearImage i ∉
          loadCalls (updateLoadRange browsingGrid).mCursorRange.min k) ∧
      (k = ((updateLoadRange browsingGrid).mCursorRange.max -
          (updateLoadRange browsingGrid).mCursorRange.min).toNat + 1 →
        t.bLoading = false ∧ t.bUnloaded = false ∧
        t.trace = (updateLoadRange browsingGrid).trace ++
          loadCalls (updateLoadRange browsingGrid).mCursorRange.min k) ∧
      (((updateLoadRange browsingGrid).mCursorRange.max -
          (updateLoadRange browsingGrid).mCursorRange.min).toNat + 2 ≤ k →
        t.bLoading = false ∧ t.bUnloaded = true ∧
        ticks? squareCovers (((updateLoadRange browsingGrid).mCursorRange.max -
          (updateLoadRange browsingGrid).mCursorRange.min).toNat + 2)
          (updateLoadRange browsingGrid) = some t ∧
        ∃ cleared : List Int, t.trace =
          (updateLoadRange browsingGrid).trace ++
            loadCalls (updateLoadRange browsingGrid).mCursorRange.min
              (((updateLoadRange browsingGrid).mCursorRange.max -
                (updateLoadRange browsingGrid).mCursorRange.min).toNat + 1) ++
            cleared.map Call.clearImage)) ∧
    ∀ k : Nat, ∃ t, ticks? squareCovers k (updateLoadRange browsingGrid) = some t :=
  ⟨by decide,
    (load_before_evict squareCovers browsingGrid (updateLoadRange browsingGrid)
      (by decide) rfl).2.2.1,
    (load_before_evict squareCovers browsingGrid (updateLoadRange browsingGrid)
      (by decide) rfl).2.2.2
      (by rw [updateLoadRange_browsingGrid]; decide)
      (by rw [updateLoadRange_browsingGrid]; decide)
      (fun k _ => browsingGrid_columns squareCovers (fun _ => rfl) (k + 1))⟩

theorem getGridSize_buildImages (s : ImageGridComponent) :
    getGridSize (buildImages s) = getGridSize s :=
  getGridSize_congr _ _ rfl rfl rfl

theorem getGridSize_updateImages (s : ImageGridComponent) :
    getGridSize (updateImages s) = getGridSize s := by
  unfold updateImages
  simp only
  split_ifs
  · exact getGridSize_congr _ _ rfl rfl rfl
  · exact getGridSize_congr _ _ rfl rfl rfl

/-- On a grid with at least one column the rebuild returns, and a second
rebuild of its result returns the same state again. -/
theorem onSizeChanged?_idempotent (s : ImageGridComponent) (h : (getGridSize s).x ≠ 0) :
    ∃ t, onSizeChanged? s = some t ∧ onSizeChanged? t = some t := by
  have h1 : (getGridSize (buildImages s)).x ≠ 0 := by rw [getGridSize_buildImages]; exact h
  have hs : onSizeChanged? s = some (onSizeChanged s) := by
    unfold onSizeChanged? onSizeChanged
    exact updateImages?_of_column _ h1
  have h2 : (getGridSize (buildImages (onSizeChanged s))).x ≠ 0 := by
    rw [getGridSize_buildImages]
    unfold onSizeChanged
    rw [getGridSize_updateImages]
    exact h1
  refine ⟨onSizeChanged s, hs, ?_⟩
  have ht : onSizeChanged? (onSizeChanged s) = some (onSizeChanged (onSizeChanged s)) := by
    unfold onSizeChanged?
    rw [updateImages?_of_column _ h2]
    rfl
  rw [ht, (rebuild_twice_eq s).1]

/-- C16 at a 150 x 150 viewport with one entry: the tile is 171.6 wide, the
grid has no column, and the rebuild has no result: `updateImages` divides the
cursor by the column count 0 on line 393, so the rebuild is not completed even
once. -/
theorem onSizeChanged_zero_columns :
    getGridSize narrowGrid = ⟨0, 0⟩ ∧ (buildImages narrowGrid).mImages = [] ∧
    updateImages? (buildImages narrowGrid) = none ∧
    onSizeChanged? narrowGrid = none := by
  have hg : getGridSize narrowGrid = ⟨0, 0⟩ := by
    simp [getGridSize, getMaxSquareSize, getSquareSize, getPadding, narrowGrid, frameEntry,
      TextureResource.get, squareCovers, truncToInt]
    norm_num
  have hb : (getGridSize (buildImages narrowGrid)).x = 0 := by
    rw [getGridSize_buildImages, hg]
  have hu : updateImages? (buildImages narrowGrid) = none := by
    unfold updateImages?
    rw [if_pos hb]
  refine ⟨hg, ?_, hu, hu⟩
  simp [buildImages, hg]

end ImageGrid
